import Mathlib

/-!
Shallow embedding of the Miosync event-management backend's message
correlation subsystem: the phone normalizer (src/utils/phone-number.util.ts),
the token store and response correlator (whatsapp.service.ts, in both the
revision under src/modules and the fixed revision in the unnamed part of
the repository), the webhook controller (whatsapp.controller.ts), the
outbound retry policy (event-participants.service.ts) and the reminder
scheduler (events-reminder.scheduler.ts).

Strings are modelled as lists of characters.  Timestamps are naturals.
JavaScript falsiness of a string is emptiness; null is Option.none.
-/

set_option maxRecDepth 4000

/-- Strings from the TypeScript source, modelled as character lists. -/
abbrev Str : Type := List Char

namespace MioSync

/-- JS `hay.includes(pat)` on strings: substring containment. -/
def hasSubstr : Str → Str → Bool
  | [], pat => pat.isEmpty
  | c :: t, pat => pat.isPrefixOf (c :: t) || hasSubstr t pat

/-- JS `s.toLowerCase()` restricted to the ASCII range used by the source. -/
def lowerStr (s : Str) : Str := s.map Char.toLower

/-- `replace(/[^\d+]/g, '')`: keep only digits and plus signs. -/
def cleanPhone (s : Str) : Str := s.filter (fun c => c.isDigit || c == '+')

/-- SQL `REPLACE(REPLACE(x, ' ', ''), '-', '')`: drop spaces and hyphens. -/
def stripPunct (s : Str) : Str := s.filter (fun c => !(c == ' ' || c == '-'))

/-- Number of decimal digits in a string. -/
def digitCount (s : Str) : Nat := (s.filter Char.isDigit).length

end MioSync

namespace PhoneUtil

open MioSync

/-- The typed reasons `validateAndNormalizePhoneNumber` can reject with
(phone-number.util.ts lines 26-76). -/
inductive PhoneError where
  | required
  | emptyAfterCleaning
  | invalidE164Format
  | invalidIndianLength
deriving DecidableEq, Repr

/-- `PhoneNumberValidationResult` (phone-number.util.ts lines 8-12). -/
structure PhoneNumberValidationResult where
  isValid : Bool
  normalized : Str
  error : Option PhoneError
deriving DecidableEq, Repr

/-- `normalized.startsWith('0') && !normalized.startsWith('+')` followed by
`substring(1)` (phone-number.util.ts lines 50-52). -/
def stripLeadingZero (s : Str) : Str :=
  if s.head? == some '0' && !(s.head? == some '+') then s.tail else s

/-- `if (!normalized.startsWith('+')) normalized = '+' + cc + normalized`
(phone-number.util.ts lines 55-57). -/
def addCountryCode (cc s : Str) : Str :=
  if s.head? == some '+' then s else '+' :: (cc ++ s)

/-- The regex `^\+\d{10,15}$` (phone-number.util.ts line 60). -/
def isE164Format (s : Str) : Bool :=
  match s with
  | '+' :: ds => ds.all Char.isDigit && decide (10 ≤ ds.length) && decide (ds.length ≤ 15)
  | _ => false

/-- `normalized.startsWith('+91')` (phone-number.util.ts line 70). -/
def startsPlus91 (s : Str) : Bool := ("+91".data).isPrefixOf s

/-- The candidate string that reaches the validation steps: cleaned of
non-phone characters, a leading zero stripped, the default country code
prepended when no plus sign remains. -/
def normalizeCandidate (cc input : Str) : Str :=
  addCountryCode cc (stripLeadingZero (cleanPhone input))

/-- `validateAndNormalizePhoneNumber` (phone-number.util.ts lines 21-82).
The initial `trim()` is omitted: the subsequent character filter removes
every whitespace character the trim would have removed. -/
def validateAndNormalizePhoneNumber (input cc : Str) : PhoneNumberValidationResult :=
  if input.isEmpty then ⟨false, [], some .required⟩
  else
    let cleaned := cleanPhone input
    if cleaned.isEmpty then ⟨false, [], some .emptyAfterCleaning⟩
    else
      let candidate := addCountryCode cc (stripLeadingZero cleaned)
      if !isE164Format candidate then ⟨false, candidate, some .invalidE164Format⟩
      else if startsPlus91 candidate && !(candidate.length == 13) then
        ⟨false, candidate, some .invalidIndianLength⟩
      else ⟨true, candidate, none⟩

theorem validate_isValid_iff (input cc : Str) :
    (validateAndNormalizePhoneNumber input cc).isValid = true ↔
      (cleanPhone input ≠ [] ∧
        isE164Format (normalizeCandidate cc input) = true ∧
        (startsPlus91 (normalizeCandidate cc input) = true →
          (normalizeCandidate cc input).length = 13)) := by
  unfold validateAndNormalizePhoneNumber normalizeCandidate
  by_cases hin : input = []
  · subst hin
    simp [cleanPhone]
  · have hne : input.isEmpty = false := by
      simp [List.isEmpty_iff]; exact hin
    rw [hne]
    simp only [Bool.false_eq_true, if_false]
    by_cases hcl : cleanPhone input = []
    · simp [hcl, List.isEmpty_iff]
    · have hcle : (cleanPhone input).isEmpty = false := by
        simp [List.isEmpty_iff]; exact hcl
      rw [hcle]
      simp only [Bool.false_eq_true, if_false]
      by_cases he : isE164Format (addCountryCode cc (stripLeadingZero (cleanPhone input))) = true
      · rw [he]
        simp only [Bool.not_true, Bool.false_eq_true, if_false]
        by_cases hp : startsPlus91 (addCountryCode cc (stripLeadingZero (cleanPhone input))) = true
        · by_cases hl : (addCountryCode cc (stripLeadingZero (cleanPhone input))).length = 13
          · simp [hp, hl, hcl, he]
          · simp [hp, hl, hcl, he]
        · simp only [Bool.not_eq_true] at hp
          simp [hp, hcl, he]
      · simp only [Bool.not_eq_true] at he
        simp [he, hcl]

theorem validate_valid_normalized (input cc : Str)
    (h : (validateAndNormalizePhoneNumber input cc).isValid = true) :
    validateAndNormalizePhoneNumber input cc =
      ⟨true, normalizeCandidate cc input, none⟩ := by
  unfold validateAndNormalizePhoneNumber at h ⊢
  unfold normalizeCandidate
  by_cases hin : input.isEmpty = true
  · rw [hin] at h; simp at h
  · rw [Bool.not_eq_true] at hin
    rw [hin] at h ⊢
    simp only [Bool.false_eq_true, if_false] at h ⊢
    by_cases hcl : (cleanPhone input).isEmpty = true
    · rw [hcl] at h; simp at h
    · rw [Bool.not_eq_true] at hcl
      rw [hcl] at h ⊢
      simp only [Bool.false_eq_true, if_false] at h ⊢
      by_cases he : isE164Format (addCountryCode cc (stripLeadingZero (cleanPhone input))) = true
      · rw [he] at h ⊢
        simp only [Bool.not_true, Bool.false_eq_true, if_false] at h ⊢
        by_cases hi : (startsPlus91 (addCountryCode cc (stripLeadingZero (cleanPhone input))) &&
            !((addCountryCode cc (stripLeadingZero (cleanPhone input))).length == 13)) = true
        · rw [hi] at h; simp at h
        · rw [Bool.not_eq_true] at hi
          rw [hi] at h ⊢
          simp
      · rw [Bool.not_eq_true] at he
        rw [he] at h
        simp at h

end PhoneUtil

namespace PhoneUtil

open MioSync

theorem e164_shape {s : Str} (h : isE164Format s = true) :
    ∃ ds, s = '+' :: ds ∧ ds.all Char.isDigit = true ∧ 10 ≤ ds.length ∧ ds.length ≤ 15 := by
  cases s with
  | nil => simp [isE164Format] at h
  | cons c ds =>
    by_cases hc : c = '+'
    · subst hc
      simp only [isE164Format, Bool.and_eq_true, decide_eq_true_eq] at h
      exact ⟨ds, rfl, h.1.1, h.1.2, h.2⟩
    · exfalso
      simp only [isE164Format] at h
      split at h
      · next heq => exact hc (by injection heq)
      · exact Bool.false_ne_true h

end PhoneUtil

namespace PhoneUtil

open MioSync

theorem cleanPhone_of_e164 {s : Str} (h : isE164Format s = true) : cleanPhone s = s := by
  obtain ⟨ds, rfl, hall, -, -⟩ := e164_shape h
  unfold cleanPhone
  rw [List.filter_eq_self]
  intro a ha
  rcases List.mem_cons.mp ha with h1 | h2
  · subst h1; rfl
  · have := List.all_eq_true.mp hall a h2
    simp [this]

theorem validate_idempotent (input cc : Str)
    (h : (validateAndNormalizePhoneNumber input cc).isValid = true) :
    validateAndNormalizePhoneNumber
        (validateAndNormalizePhoneNumber input cc).normalized cc =
      validateAndNormalizePhoneNumber input cc := by
  have hres := validate_valid_normalized input cc h
  rw [hres]
  have hiff := (validate_isValid_iff input cc).mp h
  obtain ⟨-, he, hind⟩ := hiff
  obtain ⟨ds, hshape, -, hlen, -⟩ := e164_shape he
  set o := normalizeCandidate cc input with ho
  have hclean : cleanPhone o = o := cleanPhone_of_e164 he
  have honempty : o ≠ [] := by rw [hshape]; simp
  have hhead : o.head? = some '+' := by rw [hshape]; rfl
  have hzero : stripLeadingZero o = o := by
    unfold stripLeadingZero
    rw [hhead]
    simp
  have hadd : addCountryCode cc o = o := by
    unfold addCountryCode
    rw [hhead]
    simp
  have hcand : normalizeCandidate cc o = o := by
    unfold normalizeCandidate
    rw [hclean, hzero, hadd]
  have hvalid : (validateAndNormalizePhoneNumber o cc).isValid = true := by
    rw [validate_isValid_iff]
    refine ⟨by rw [hclean]; exact honempty, ?_, ?_⟩
    · rw [hcand]; exact he
    · rw [hcand]; exact hind
  have := validate_valid_normalized o cc hvalid
  rw [this, hcand]

theorem validate_digit_bound (input : Str)
    (h : digitCount (stripLeadingZero (cleanPhone input)) < 10 ∨
         15 < digitCount (stripLeadingZero (cleanPhone input))) :
    (validateAndNormalizePhoneNumber input ("91".data)).isValid = false := by
  by_contra hy
  rw [Bool.not_eq_false] at hy
  obtain ⟨-, he, hind⟩ := (validate_isValid_iff input ("91".data)).mp hy
  set s := stripLeadingZero (cleanPhone input) with hs
  by_cases hh : s.head? = some '+'
  · have hcand : normalizeCandidate ("91".data) input = s := by
      unfold normalizeCandidate addCountryCode
      rw [← hs, hh]
      simp
    rw [hcand] at he
    obtain ⟨ds, hds, hall, h10, h15⟩ := e164_shape he
    have hcount : digitCount s = ds.length := by
      rw [hds]
      unfold digitCount
      simp only [List.filter_cons]
      have : ('+'.isDigit) = false := by decide
      rw [this]
      simp only [Bool.false_eq_true, if_false]
      rw [List.filter_eq_self.mpr (fun a ha => List.all_eq_true.mp hall a ha)]
    rw [hcount] at h
    omega
  · have hcand : normalizeCandidate ("91".data) input = '+' :: '9' :: '1' :: s := by
      unfold normalizeCandidate addCountryCode
      rw [← hs]
      have : (s.head? == some '+') = false := by
        simp only [beq_eq_false_iff_ne, ne_eq]
        exact hh
      rw [this]
      simp [String.data]
    rw [hcand] at he hind
    obtain ⟨ds, hds, hall, h10, h15⟩ := e164_shape he
    have hds' : ds = '9' :: '1' :: s := by
      injection hds with h1 h2
      exact h2.symm
    subst hds'
    have hsall : s.all Char.isDigit = true := by
      simp only [List.all_cons, Bool.and_eq_true] at hall
      exact hall.2.2
    have hcount : digitCount s = s.length := by
      unfold digitCount
      rw [List.filter_eq_self.mpr (fun a ha => List.all_eq_true.mp hsall a ha)]
    have hpre : startsPlus91 ('+' :: '9' :: '1' :: s) = true := by
      unfold startsPlus91
      simp [String.data, List.isPrefixOf]
    have hlen := hind hpre
    simp only [List.length_cons] at hlen h10 h15
    rw [hcount] at h
    omega

theorem validate_invalid_error (input cc : Str)
    (hf : (validateAndNormalizePhoneNumber input cc).isValid = false) :
    (validateAndNormalizePhoneNumber input cc).error.isSome = true := by
  unfold validateAndNormalizePhoneNumber at hf ⊢
  by_cases hin : input.isEmpty = true
  · simp [hin]
  · rw [Bool.not_eq_true] at hin
    rw [hin] at hf ⊢
    simp only [Bool.false_eq_true, if_false] at hf ⊢
    by_cases hcl : (cleanPhone input).isEmpty = true
    · simp [hcl]
    · rw [Bool.not_eq_true] at hcl
      rw [hcl] at hf ⊢
      simp only [Bool.false_eq_true, if_false] at hf ⊢
      by_cases he : isE164Format (addCountryCode cc (stripLeadingZero (cleanPhone input))) = true
      · rw [he] at hf ⊢
        simp only [Bool.not_true, Bool.false_eq_true, if_false] at hf ⊢
        by_cases hi : (startsPlus91 (addCountryCode cc (stripLeadingZero (cleanPhone input))) &&
            !((addCountryCode cc (stripLeadingZero (cleanPhone input))).length == 13)) = true
        · simp [hi]
        · rw [Bool.not_eq_true] at hi
          rw [hi] at hf
          simp at hf
      · rw [Bool.not_eq_true] at he
        rw [he] at hf ⊢
        simp

end PhoneUtil

/-- C6: the claim that the normalizer accepts exactly when the cleaned,
zero-stripped, country-code-prefixed result matches `^\+\d{10,15}$` is false:
the input "+9112345678" yields a result matching the regex, yet the function
rejects it (the extra Indian-number length check at phone-number.util.ts
lines 70-76 requires a "+91"-prefixed result to have exactly 13 characters). -/
theorem C6_counterexample :
    (PhoneUtil.validateAndNormalizePhoneNumber ("+9112345678".data) ("91".data)).isValid = false ∧
    PhoneUtil.isE164Format
      (PhoneUtil.validateAndNormalizePhoneNumber ("+9112345678".data) ("91".data)).normalized
        = true := by
  constructor <;> rfl

/-- C6 (amended): for every input string, the normalizer strips all characters
except digits and plus signs, strips a leading '0' when not '+'-prefixed,
prepends the configured default country calling code when no '+' prefix
remains, and accepts (returning the canonical string) exactly when the result
matches `^\+\d{10,15}$` AND, additionally, whenever the result starts with
"+91" its total length is exactly 13; otherwise it returns a typed validation
failure. -/
theorem C6_amended (input cc : Str) :
    ((PhoneUtil.validateAndNormalizePhoneNumber input cc).isValid = true ↔
      (MioSync.cleanPhone input ≠ [] ∧
        PhoneUtil.isE164Format (PhoneUtil.normalizeCandidate cc input) = true ∧
        (PhoneUtil.startsPlus91 (PhoneUtil.normalizeCandidate cc input) = true →
          (PhoneUtil.normalizeCandidate cc input).length = 13))) ∧
    ((PhoneUtil.validateAndNormalizePhoneNumber input cc).isValid = true →
      PhoneUtil.validateAndNormalizePhoneNumber input cc =
        ⟨true, PhoneUtil.normalizeCandidate cc input, none⟩) ∧
    ((PhoneUtil.validateAndNormalizePhoneNumber input cc).isValid = false →
      (PhoneUtil.validateAndNormalizePhoneNumber input cc).error.isSome = true) :=
  ⟨PhoneUtil.validate_isValid_iff input cc,
   PhoneUtil.validate_valid_normalized input cc,
   PhoneUtil.validate_invalid_error input cc⟩

/-- Witness for C6_amended: instantiated at the accepted input "9123456789"
with country code "91": the characterization's conditions hold and the
returned canonical string is "+919123456789". -/
theorem C6_amended_witness :
    PhoneUtil.validateAndNormalizePhoneNumber ("9123456789".data) ("91".data) =
      ⟨true, "+919123456789".data, none⟩ :=
  (C6_amended ("9123456789".data) ("91".data)).2.1 (by rfl)

/-- C7: the phone normalizer is idempotent on every accepted canonical output
(normalizing the returned string again succeeds with the identical result);
with default country code "91" any input whose cleaned-up form (digits-and-plus
filter plus leading-zero strip) has fewer than 10 or more than 15 digits is
rejected; and the inputs "09123456789", "9123456789" and "+919123456789" all
normalize to "+919123456789" under default country code "91". -/
theorem C7_normalizer_idempotence_and_examples :
    (∀ input cc : Str,
        (PhoneUtil.validateAndNormalizePhoneNumber input cc).isValid = true →
        PhoneUtil.validateAndNormalizePhoneNumber
            (PhoneUtil.validateAndNormalizePhoneNumber input cc).normalized cc =
          PhoneUtil.validateAndNormalizePhoneNumber input cc) ∧
    (∀ input : Str,
        (MioSync.digitCount (PhoneUtil.stripLeadingZero (MioSync.cleanPhone input)) < 10 ∨
         15 < MioSync.digitCount (PhoneUtil.stripLeadingZero (MioSync.cleanPhone input))) →
        (PhoneUtil.validateAndNormalizePhoneNumber input ("91".data)).isValid = false) ∧
    PhoneUtil.validateAndNormalizePhoneNumber ("09123456789".data) ("91".data) =
      ⟨true, "+919123456789".data, none⟩ ∧
    PhoneUtil.validateAndNormalizePhoneNumber ("9123456789".data) ("91".data) =
      ⟨true, "+919123456789".data, none⟩ ∧
    PhoneUtil.validateAndNormalizePhoneNumber ("+919123456789".data) ("91".data) =
      ⟨true, "+919123456789".data, none⟩ :=
  ⟨PhoneUtil.validate_idempotent, PhoneUtil.validate_digit_bound,
   by rfl, by rfl, by rfl⟩

/-- Witness for C7: the idempotence component applied at the concrete accepted
input "09123456789" and the rejection component applied at the concrete
too-short input "123", with both hypotheses discharged by evaluation. -/
theorem C7_witness :
    PhoneUtil.validateAndNormalizePhoneNumber
        (PhoneUtil.validateAndNormalizePhoneNumber ("09123456789".data) ("91".data)).normalized
        ("91".data) =
      PhoneUtil.validateAndNormalizePhoneNumber ("09123456789".data) ("91".data) ∧
    (PhoneUtil.validateAndNormalizePhoneNumber ("123".data) ("91".data)).isValid = false :=
  ⟨C7_normalizer_idempotence_and_examples.1 ("09123456789".data) ("91".data) (by rfl),
   C7_normalizer_idempotence_and_examples.2.1 ("123".data) (Or.inl (by decide))⟩

namespace Domain

open MioSync

/-- A row of the `whatsapp_message_tokens` table
(whatsapp-message-token.entity.ts lines 9-42). -/
structure MessageToken where
  messageId : Str
  participantId : Str
  eventId : Str
  phoneNumber : Str
  templateName : Option Str
  isProcessed : Bool
  createdAt : Nat
deriving DecidableEq, Repr

/-- A row of the `event_participants` table, restricted to the fields the
correlator and the reminder scheduler read and write. -/
structure Participant where
  id : Str
  eventId : Str
  name : Str
  phoneNumber : Option Str
  attending : Option Str
  reminderSentAt : Option Nat
  createdAt : Nat
deriving DecidableEq, Repr

/-- The shared persistent state: the token table and the participant table. -/
structure SysState where
  tokens : List MessageToken
  participants : List Participant
deriving DecidableEq, Repr

/-- `INSERT INTO "whatsapp_message_tokens" ... ON CONFLICT ("messageId") DO
NOTHING` (whatsapp.service.ts lines 618-631, part_009 lines 953-966): a row
whose message id is already present leaves the table untouched. -/
def insertToken (store : List MessageToken) (t : MessageToken) : List MessageToken :=
  if store.any (fun u => u.messageId == t.messageId) then store else store ++ [t]

/-- One step of the `ORDER BY "createdAt" DESC LIMIT 1` scan: keep whichever
of the accumulator and the next row was created later. -/
def latestStep {α : Type} (created : α → Nat) (acc : Option α) (x : α) : Option α :=
  match acc with
  | none => some x
  | some b => if created b < created x then some x else some b

/-- `ORDER BY "createdAt" DESC LIMIT 1` over a result set: the row with the
greatest creation time (first-seen row wins a tie, as some row must). -/
def selectLatest {α : Type} (created : α → Nat) (l : List α) : Option α :=
  l.foldl (latestStep created) none

/-- `SELECT ... WHERE "phoneNumber" = $1 AND "isProcessed" = false ORDER BY
"createdAt" DESC LIMIT 1` (whatsapp.service.ts lines 453-460). -/
def latestUnprocessedByPhone (store : List MessageToken) (phone : Str) : Option MessageToken :=
  selectLatest (fun t => t.createdAt)
    (store.filter (fun t => t.phoneNumber == phone && !t.isProcessed))

/-- `SELECT ... WHERE "messageId" = $1 LIMIT 1` (whatsapp.service.ts
lines 656-662, `findParticipantByMessageId`). -/
def findTokenByMessageId (store : List MessageToken) (mid : Str) : Option MessageToken :=
  store.find? (fun t => t.messageId == mid)

/-- `UPDATE ... SET "isProcessed" = true WHERE "messageId" = $1`
(whatsapp.service.ts lines 718-734, `markMessageTokenAsProcessed`). -/
def markMessageTokenAsProcessed (store : List MessageToken) (mid : Str) : List MessageToken :=
  store.map (fun t => if t.messageId == mid then { t with isProcessed := true } else t)

/-- `DELETE FROM ... WHERE "messageId" = $1` (whatsapp.service.ts
lines 739-755, `deleteMessageToken`). -/
def deleteMessageToken (store : List MessageToken) (mid : Str) : List MessageToken :=
  store.filter (fun t => !(t.messageId == mid))

/-- The per-row effect of the attendance update: set `attending` on the rows
matched by `id = $2 AND "eventId" = $3`, leave every other column alone. -/
def attendUpd (pid eid status : Str) (q : Participant) : Participant :=
  if q.id == pid && q.eventId == eid then { q with attending := some status } else q

/-- `UPDATE "event_participants" SET attending = $1 WHERE id = $2 AND
"eventId" = $3` (whatsapp.service.ts lines 543-549 and 694-699). -/
def updateParticipantAttending (ps : List Participant) (pid eid status : Str) :
    List Participant :=
  ps.map (attendUpd pid eid status)

/-- The per-row probe predicate `REPLACE(REPLACE("phoneNumber", ' ', ''), '-',
'') = $1 OR "phoneNumber" = $1`; a NULL phone matches nothing. -/
def participantMatches (f : Str) (q : Participant) : Bool :=
  match q.phoneNumber with
  | none => false
  | some ph => stripPunct ph == f || ph == f

/-- The participant probe for one phone format: `SELECT * FROM
"event_participants" WHERE <matches> ORDER BY "createdAt" DESC LIMIT 1`
(whatsapp.service.ts lines 480-487). -/
def lookupParticipantByFormat (ps : List Participant) (f : Str) : Option Participant :=
  selectLatest (fun q => q.createdAt) (ps.filter (participantMatches f))

/-- The yes/no derivation from button title and button id
(whatsapp.service.ts lines 524-533). -/
def attendingStatusOf (buttonTitle buttonId : Str) : Option Str :=
  if hasSubstr (lowerStr buttonTitle) ("yes".data) || lowerStr buttonTitle == "yes".data ||
      hasSubstr (lowerStr buttonId) ("yes".data) then some ("yes".data)
  else if hasSubstr (lowerStr buttonTitle) ("no".data) || lowerStr buttonTitle == "no".data ||
      hasSubstr (lowerStr buttonId) ("no".data) then some ("no".data)
  else none

end Domain

namespace WhatsappServiceMain

open MioSync Domain

/-- `storeMessageToken` as it stands in src/src/modules/whatsapp/
whatsapp.service.ts lines 610-644.  The insert binds the `"isProcessed"`
column to the literal `true` (line 629). -/
def storeMessageToken (store : List MessageToken)
    (messageId participantId eventId phoneNumber : Str)
    (templateName : Option Str) (now : Nat) : List MessageToken :=
  insertToken store ⟨messageId, participantId, eventId, phoneNumber, templateName, true, now⟩

/-- The two-probe phone fallback of this revision (whatsapp.service.ts lines
474-502): first the normalized phone, then — only when the first probe found
nothing — the '+'-prefixed form. -/
def fallbackParticipantLookup (ps : List Participant) (normalizedPhone : Str) :
    Option Participant :=
  match lookupParticipantByFormat ps normalizedPhone with
  | some p => some p
  | none =>
      let phoneWithPlus :=
        if normalizedPhone.head? == some '+' then normalizedPhone else '+' :: normalizedPhone
      lookupParticipantByFormat ps phoneWithPlus

/-- `handleButtonResponseByMessageId` (whatsapp.service.ts lines 441-566):
token-first correlation on the most recent unprocessed token for the phone,
phone-format fallback otherwise; attendance update scoped by participant and
event ids; the token (when one was used) marked processed afterwards. -/
def handleButtonResponseByMessageId (st : SysState)
    (_messageId phoneNumber buttonTitle buttonId : Str) : SysState :=
  let normalizedPhone := cleanPhone phoneNumber
  match latestUnprocessedByPhone st.tokens normalizedPhone with
  | some tok =>
      if tok.participantId == ([] : Str) || tok.eventId == ([] : Str) then st
      else
        match attendingStatusOf buttonTitle buttonId with
        | none => st
        | some status =>
            { tokens := markMessageTokenAsProcessed st.tokens tok.messageId,
              participants :=
                updateParticipantAttending st.participants tok.participantId tok.eventId status }
  | none =>
      match fallbackParticipantLookup st.participants normalizedPhone with
      | none => st
      | some p =>
          if p.id == ([] : Str) || p.eventId == ([] : Str) then st
          else
            match attendingStatusOf buttonTitle buttonId with
            | none => st
            | some status =>
                { tokens := st.tokens,
                  participants := updateParticipantAttending st.participants p.id p.eventId status }

/-- `findAndStoreStatusToken` (whatsapp.service.ts lines 760-820): find a
participant by the two-probe phone fallback and store a provisional
`status_update` token for them. -/
def findAndStoreStatusToken (st : SysState) (messageId phoneNumber : Str) (now : Nat) :
    SysState :=
  let normalizedPhone := cleanPhone phoneNumber
  match fallbackParticipantLookup st.participants normalizedPhone with
  | some p =>
      { st with tokens := (storeMessageToken st.tokens messageId p.id p.eventId
          normalizedPhone (some ("status_update".data)) now) }
  | none => st

end WhatsappServiceMain

namespace WhatsappServiceFixed

open MioSync Domain

/-- `storeMessageToken` in the fixed revision (src/unnamed/part_009 lines
939-983): identical insert but the `"isProcessed"` column is bound to `false`
("Changed from true to false - message not yet processed"). -/
def storeMessageToken (store : List MessageToken)
    (messageId participantId eventId phoneNumber : Str)
    (templateName : Option Str) (now : Nat) : List MessageToken :=
  insertToken store ⟨messageId, participantId, eventId, phoneNumber, templateName, false, now⟩

/-- The three probe formats of the fixed revision (part_009 lines 797-801):
the normalized phone, its '+'-prefixed form, and its default-country-code
('+91')-prefixed form. -/
def phoneFormats (np : Str) : List Str :=
  [np,
   if np.head? == some '+' then np else '+' :: np,
   if ("+91".data).isPrefixOf np then np
   else "+91".data ++ (match np with | '+' :: t => t | _ => np)]

/-- The probe loop of the fixed revision (part_009 lines 803-817): try each
format in order, stopping at the first probe that finds a participant. -/
def probeFormats (ps : List Participant) : List Str → Option Participant
  | [] => none
  | f :: rest =>
      match lookupParticipantByFormat ps f with
      | some q => some q
      | none => probeFormats ps rest

/-- The phone-format fallback of the fixed revision: the probe loop applied to
the three formats in order. -/
def fallbackParticipantLookup (ps : List Participant) (np : Str) : Option Participant :=
  probeFormats ps (phoneFormats np)

/-- `handleButtonResponseByMessageId` in the fixed revision (part_009 lines
729-881): like the main revision but with input validation and the
three-format probe loop. -/
def handleButtonResponseByMessageId (st : SysState)
    (messageId phoneNumber buttonTitle buttonId : Str) : SysState :=
  if messageId == ([] : Str) || phoneNumber == ([] : Str) || buttonTitle == ([] : Str) then st
  else
    let np := cleanPhone phoneNumber
    if np == ([] : Str) then st
    else
      match latestUnprocessedByPhone st.tokens np with
      | some tok =>
          if tok.participantId == ([] : Str) || tok.eventId == ([] : Str) then st
          else
            match attendingStatusOf buttonTitle buttonId with
            | none => st
            | some status =>
                { tokens := markMessageTokenAsProcessed st.tokens tok.messageId,
                  participants :=
                    updateParticipantAttending st.participants tok.participantId tok.eventId status }
      | none =>
          match fallbackParticipantLookup st.participants np with
          | none => st
          | some p =>
              if p.id == ([] : Str) || p.eventId == ([] : Str) then st
              else
                match attendingStatusOf buttonTitle buttonId with
                | none => st
                | some status =>
                    { tokens := st.tokens,
                      participants := updateParticipantAttending st.participants p.id p.eventId status }

end WhatsappServiceFixed

namespace Controller

open MioSync Domain

/-- The new-format button branch of the webhook handler
(whatsapp.controller.ts lines 316-399): a `button`-type message with text
"Yes" or "No" and a context message id updates attendance and deletes the
token only when the token resolved from the context id carries template name
`booking_confirmation`. -/
def handleNewFormatButtonReply (st : SysState) (buttonText : Str)
    (contextMessageId : Option Str) : SysState :=
  if buttonText == "Yes".data || buttonText == "No".data then
    match contextMessageId with
    | some ctx =>
        match findTokenByMessageId st.tokens ctx with
        | some tokenData =>
            if tokenData.templateName == some ("booking_confirmation".data) then
              let attendingStatus :=
                if buttonText == "Yes".data then "Yes".data else "No".data
              { tokens := deleteMessageToken st.tokens ctx,
                participants := updateParticipantAttending st.participants
                  tokenData.participantId tokenData.eventId attendingStatus }
            else st
        | none => st
    | none => st
  else st

/-- The status branch of the webhook handler (whatsapp.controller.ts lines
451-521): only run when the change carries no message events; an existing
token leads to an attendance update to "Not responded", an absent token to a
provisional token via the phone-based participant lookup.  The status value
itself (`sent`/`delivered`/`read`/`failed`) is only logged, hence unused. -/
def handleStatusUpdate (st : SysState) (messageId recipientId _status : Str)
    (hasMessages : Bool) (now : Nat) : SysState :=
  if hasMessages then st
  else if messageId == ([] : Str) || recipientId == ([] : Str) then st
  else
    match findTokenByMessageId st.tokens messageId with
    | none =>
        WhatsappServiceMain.findAndStoreStatusToken st messageId (cleanPhone recipientId) now
    | some tokenData =>
        { st with participants := (updateParticipantAttending st.participants
            tokenData.participantId tokenData.eventId ("Not responded".data)) }

end Controller

namespace Domain

open MioSync

theorem latestStep_mem {α : Type} (created : α → Nat) (acc : Option α) (x : α) :
    latestStep created acc x = some x ∨ latestStep created acc x = acc := by
  cases acc with
  | none => exact Or.inl rfl
  | some b =>
    simp only [latestStep]
    by_cases hc : created b < created x
    · rw [if_pos hc]; exact Or.inl rfl
    · rw [if_neg hc]; exact Or.inr rfl

theorem selectLatest_aux_mem {α : Type} (created : α → Nat) :
    ∀ (l : List α) (acc : Option α) (x : α),
      l.foldl (latestStep created) acc = some x → x ∈ l ∨ acc = some x := by
  intro l
  induction l with
  | nil =>
    intro acc x h
    exact Or.inr h
  | cons y t ih =>
    intro acc x h
    simp only [List.foldl_cons] at h
    rcases ih _ x h with h1 | h2
    · exact Or.inl (List.mem_cons_of_mem _ h1)
    · rcases latestStep_mem created acc y with h3 | h3 <;> rw [h3] at h2
      · injection h2 with h4
        exact Or.inl (List.mem_cons.mpr (Or.inl h4.symm))
      · exact Or.inr h2

theorem selectLatest_mem {α : Type} (created : α → Nat) (l : List α) {x : α}
    (h : selectLatest created l = some x) : x ∈ l := by
  rcases selectLatest_aux_mem created l none x h with h1 | h2
  · exact h1
  · exact absurd h2 (by simp)

theorem latestStep_isSome {α : Type} (created : α → Nat) (b : α) (x : α) :
    ∃ c, latestStep created (some b) x = some c := by
  simp only [latestStep]
  by_cases hc : created b < created x
  · exact ⟨x, if_pos hc⟩
  · exact ⟨b, if_neg hc⟩

theorem selectLatest_aux_ne_none {α : Type} (created : α → Nat) :
    ∀ (l : List α) (b : α), l.foldl (latestStep created) (some b) ≠ none := by
  intro l
  induction l with
  | nil => intro b h; exact Option.noConfusion h
  | cons y t ih =>
    intro b h
    simp only [List.foldl_cons] at h
    obtain ⟨c, hc⟩ := latestStep_isSome created b y
    rw [hc] at h
    exact ih c h

theorem selectLatest_eq_none_iff {α : Type} (created : α → Nat) (l : List α) :
    selectLatest created l = none ↔ l = [] := by
  constructor
  · intro h
    cases l with
    | nil => rfl
    | cons y t =>
      exfalso
      unfold selectLatest latestStep at h
      simp only [List.foldl_cons] at h
      exact selectLatest_aux_ne_none created t y h
  · intro h
    subst h
    rfl

theorem selectLatest_subsingleton {α : Type} (created : α → Nat) (l : List α) (p : α)
    (hall : ∀ x ∈ l, x = p) (hne : l ≠ []) : selectLatest created l = some p := by
  cases hsel : selectLatest created l with
  | none => exact absurd ((selectLatest_eq_none_iff created l).mp hsel) hne
  | some x =>
    have := hall x (selectLatest_mem created l hsel)
    rw [this]

theorem latestStep_map {α : Type} (created : α → Nat) (u : α → α)
    (hcr : ∀ x, created (u x) = created x) (acc : Option α) (y : α) :
    latestStep created (acc.map u) (u y) = (latestStep created acc y).map u := by
  cases acc with
  | none => rfl
  | some b =>
    simp only [latestStep, Option.map_some']
    by_cases hc : created b < created y
    · have hcb : created (u b) < created (u y) := by rw [hcr b, hcr y]; exact hc
      rw [if_pos hc, if_pos hcb]
      rfl
    · have hcb : ¬ created (u b) < created (u y) := by rw [hcr b, hcr y]; exact hc
      rw [if_neg hc, if_neg hcb]
      rfl

theorem selectLatest_aux_map {α : Type} (created : α → Nat) (u : α → α)
    (hcr : ∀ x, created (u x) = created x) :
    ∀ (l : List α) (acc : Option α),
      (l.map u).foldl (latestStep created) (acc.map u) =
        (l.foldl (latestStep created) acc).map u := by
  intro l
  induction l with
  | nil => intro acc; rfl
  | cons y t ih =>
    intro acc
    simp only [List.map_cons, List.foldl_cons]
    rw [latestStep_map created u hcr acc y]
    exact ih (latestStep created acc y)

theorem selectLatest_map {α : Type} (created : α → Nat) (u : α → α)
    (hcr : ∀ x, created (u x) = created x) (l : List α) :
    selectLatest created (l.map u) = (selectLatest created l).map u := by
  unfold selectLatest
  have := selectLatest_aux_map created u hcr l none
  simpa using this

end Domain

namespace Domain

open MioSync

theorem attendUpd_id (pid eid status : Str) (q : Participant) :
    (attendUpd pid eid status q).id = q.id := by
  unfold attendUpd
  split <;> rfl

theorem attendUpd_eventId (pid eid status : Str) (q : Participant) :
    (attendUpd pid eid status q).eventId = q.eventId := by
  unfold attendUpd
  split <;> rfl

theorem attendUpd_phoneNumber (pid eid status : Str) (q : Participant) :
    (attendUpd pid eid status q).phoneNumber = q.phoneNumber := by
  unfold attendUpd
  split <;> rfl

theorem attendUpd_createdAt (pid eid status : Str) (q : Participant) :
    (attendUpd pid eid status q).createdAt = q.createdAt := by
  unfold attendUpd
  split <;> rfl

theorem attendUpd_matches (f pid eid status : Str) (q : Participant) :
    participantMatches f (attendUpd pid eid status q) = participantMatches f q := by
  unfold participantMatches
  rw [attendUpd_phoneNumber]

theorem attendUpd_idem (pid eid status : Str) (q : Participant) :
    attendUpd pid eid status (attendUpd pid eid status q) = attendUpd pid eid status q := by
  unfold attendUpd
  by_cases hc : (q.id == pid && q.eventId == eid) = true
  · rw [if_pos hc]
    have hc2 : (({ q with attending := some status } : Participant).id == pid &&
        ({ q with attending := some status } : Participant).eventId == eid) = true := hc
    rw [if_pos hc2]
  · rw [if_neg hc, if_neg hc]

theorem lookupParticipantByFormat_update (ps : List Participant) (f pid eid status : Str) :
    lookupParticipantByFormat (updateParticipantAttending ps pid eid status) f =
      (lookupParticipantByFormat ps f).map (attendUpd pid eid status) := by
  unfold lookupParticipantByFormat updateParticipantAttending
  rw [List.filter_map]
  have hfil : ps.filter (participantMatches f ∘ attendUpd pid eid status) =
      ps.filter (participantMatches f) := by
    apply List.filter_congr
    intro q _
    exact attendUpd_matches f pid eid status q
  rw [hfil]
  exact selectLatest_map (fun q => q.createdAt) (attendUpd pid eid status)
    (attendUpd_createdAt pid eid status) (ps.filter (participantMatches f))

theorem updateParticipantAttending_idem (ps : List Participant) (pid eid status : Str) :
    updateParticipantAttending (updateParticipantAttending ps pid eid status) pid eid status =
      updateParticipantAttending ps pid eid status := by
  unfold updateParticipantAttending
  rw [List.map_map]
  apply List.map_congr_left
  intro q _
  exact attendUpd_idem pid eid status q

theorem updateParticipantAttending_sets (ps : List Participant) (pid eid status : Str) :
    ∀ q ∈ updateParticipantAttending ps pid eid status,
      q.id = pid → q.eventId = eid → q.attending = some status := by
  intro q hq hid hev
  unfold updateParticipantAttending at hq
  obtain ⟨q0, hq0, hmap⟩ := List.mem_map.mp hq
  subst hmap
  unfold attendUpd at hid hev ⊢
  by_cases hc : (q0.id == pid && q0.eventId == eid) = true
  · rw [if_pos hc]
  · rw [if_neg hc] at hid hev ⊢
    exfalso
    apply hc
    rw [Bool.and_eq_true, beq_iff_eq, beq_iff_eq]
    exact ⟨hid, hev⟩

theorem markProcessed_sets (store : List MessageToken) (mid : Str) :
    ∀ t ∈ markMessageTokenAsProcessed store mid,
      t.messageId = mid → t.isProcessed = true := by
  intro t ht hmid
  unfold markMessageTokenAsProcessed at ht
  obtain ⟨t0, ht0, hmap⟩ := List.mem_map.mp ht
  subst hmap
  by_cases hc : (t0.messageId == mid) = true
  · rw [if_pos hc] at hmid ⊢
  · rw [if_neg hc] at hmid ⊢
    exact absurd (beq_iff_eq.mpr hmid) hc

theorem latestUnprocessed_after_mark (store : List MessageToken) (np mid : Str)
    (huniq : ∀ t ∈ store, t.phoneNumber = np → t.isProcessed = false → t.messageId = mid) :
    latestUnprocessedByPhone (markMessageTokenAsProcessed store mid) np = none := by
  unfold latestUnprocessedByPhone markMessageTokenAsProcessed
  rw [selectLatest_eq_none_iff]
  rw [List.filter_eq_nil_iff]
  intro t' ht'
  obtain ⟨t0, ht0, hmap⟩ := List.mem_map.mp ht'
  subst hmap
  by_cases hc : (t0.messageId == mid) = true
  · rw [if_pos hc]
    simp
  · rw [if_neg hc]
    intro habs
    rw [Bool.and_eq_true] at habs
    have hph : t0.phoneNumber = np := beq_iff_eq.mp habs.1
    have hpr : t0.isProcessed = false := by
      have h2 := habs.2
      rwa [Bool.not_eq_true'] at h2
    exact hc (beq_iff_eq.mpr (huniq t0 ht0 hph hpr))

end Domain

namespace Domain

open MioSync

theorem attendingStatusOf_yes_title (bid : Str) :
    attendingStatusOf ("Yes".data) bid = some ("yes".data) := by
  unfold attendingStatusOf
  have h1 : hasSubstr (lowerStr ("Yes".data)) ("yes".data) = true := by decide
  rw [h1]
  rfl

end Domain

namespace WhatsappServiceMain

open MioSync Domain

theorem fallback_update (ps : List Participant) (np pid eid status : Str) :
    fallbackParticipantLookup (updateParticipantAttending ps pid eid status) np =
      (fallbackParticipantLookup ps np).map (attendUpd pid eid status) := by
  unfold fallbackParticipantLookup
  rw [lookupParticipantByFormat_update]
  cases h : lookupParticipantByFormat ps np with
  | some p => rfl
  | none => exact lookupParticipantByFormat_update ps _ pid eid status

end WhatsappServiceMain

namespace WhatsappServiceMain

open MioSync Domain

theorem handle_token_branch (st : SysState) (messageId phoneNumber buttonId : Str)
    (tok : MessageToken)
    (hres : latestUnprocessedByPhone st.tokens (cleanPhone phoneNumber) = some tok)
    (hpid : tok.participantId ≠ [])
    (heid : tok.eventId ≠ []) :
    handleButtonResponseByMessageId st messageId phoneNumber ("Yes".data) buttonId =
      ⟨markMessageTokenAsProcessed st.tokens tok.messageId,
       updateParticipantAttending st.participants tok.participantId tok.eventId ("yes".data)⟩ := by
  have h1 : (tok.participantId == ([] : Str)) = false := by
    rw [beq_eq_false_iff_ne]
    exact hpid
  have h2 : (tok.eventId == ([] : Str)) = false := by
    rw [beq_eq_false_iff_ne]
    exact heid
  simp only [handleButtonResponseByMessageId]
  rw [hres]
  simp only [h1, h2, Bool.or_self, Bool.false_eq_true, if_false]
  rw [attendingStatusOf_yes_title buttonId]

theorem handle_replay (st : SysState) (messageId phoneNumber buttonId : Str)
    (tok : MessageToken)
    (hpid : tok.participantId ≠ []) (heid : tok.eventId ≠ [])
    (huniq : ∀ t ∈ st.tokens, t.phoneNumber = cleanPhone phoneNumber →
      t.isProcessed = false → t.messageId = tok.messageId)
    (hfb : fallbackParticipantLookup st.participants (cleanPhone phoneNumber) = none ∨
      ∃ p0, fallbackParticipantLookup st.participants (cleanPhone phoneNumber) = some p0 ∧
        p0.id = tok.participantId ∧ p0.eventId = tok.eventId) :
    handleButtonResponseByMessageId
        (⟨markMessageTokenAsProcessed st.tokens tok.messageId,
          updateParticipantAttending st.participants tok.participantId tok.eventId ("yes".data)⟩ :
          SysState)
        messageId phoneNumber ("Yes".data) buttonId =
      ⟨markMessageTokenAsProcessed st.tokens tok.messageId,
       updateParticipantAttending st.participants tok.participantId tok.eventId ("yes".data)⟩ := by
  simp only [handleButtonResponseByMessageId]
  rw [latestUnprocessed_after_mark st.tokens (cleanPhone phoneNumber) tok.messageId huniq]
  rw [fallback_update]
  rcases hfb with hnone | ⟨p0, hsome, hid, hev⟩
  · rw [hnone]
    rfl
  · rw [hsome]
    simp only [Option.map_some']
    have h1 : ((attendUpd tok.participantId tok.eventId ("yes".data) p0).id == ([] : Str)) =
        false := by
      rw [attendUpd_id, hid, beq_eq_false_iff_ne]
      exact hpid
    have h2 : ((attendUpd tok.participantId tok.eventId ("yes".data) p0).eventId == ([] : Str)) =
        false := by
      rw [attendUpd_eventId, hev, beq_eq_false_iff_ne]
      exact heid
    simp only [h1, h2, Bool.or_self, Bool.false_eq_true, if_false]
    rw [attendingStatusOf_yes_title buttonId]
    rw [attendUpd_id, attendUpd_eventId, hid, hev]
    simp only [updateParticipantAttending_idem]

end WhatsappServiceMain

/-- C1: the replay-safety claim as stated is false on the code.  In a state
with two unprocessed tokens for the same phone (the documented best-effort
situation the token invariant warns about), processing a `ButtonReply` with
buttonText "Yes" resolves the newer token, yet processing the identical event
a second time resolves and marks the remaining older token — a further token
is marked processed and the final state differs from the state after the
first processing. -/
theorem C1_counterexample :
    (Domain.latestUnprocessedByPhone
        [⟨"m1".data, "a".data, "e1".data, "911".data,
            some ("booking_confirmation".data), false, 2⟩,
         ⟨"m2".data, "b".data, "e2".data, "911".data,
            some ("booking_confirmation".data), false, 1⟩] ("911".data) =
      some ⟨"m1".data, "a".data, "e1".data, "911".data,
            some ("booking_confirmation".data), false, 2⟩) ∧
    (WhatsappServiceMain.handleButtonResponseByMessageId
        (WhatsappServiceMain.handleButtonResponseByMessageId
          ⟨[⟨"m1".data, "a".data, "e1".data, "911".data,
              some ("booking_confirmation".data), false, 2⟩,
            ⟨"m2".data, "b".data, "e2".data, "911".data,
              some ("booking_confirmation".data), false, 1⟩],
            [⟨"a".data, "e1".data, "A".data, some ("911".data), none, none, 5⟩,
             ⟨"b".data, "e2".data, "B".data, some ("911".data), none, none, 6⟩]⟩
          ("wamid.reply".data) ("911".data) ("Yes".data) ("btn-1".data))
        ("wamid.reply".data) ("911".data) ("Yes".data) ("btn-1".data)) ≠
      (WhatsappServiceMain.handleButtonResponseByMessageId
          ⟨[⟨"m1".data, "a".data, "e1".data, "911".data,
              some ("booking_confirmation".data), false, 2⟩,
            ⟨"m2".data, "b".data, "e2".data, "911".data,
              some ("booking_confirmation".data), false, 1⟩],
            [⟨"a".data, "e1".data, "A".data, some ("911".data), none, none, 5⟩,
             ⟨"b".data, "e2".data, "B".data, some ("911".data), none, none, 6⟩]⟩
          ("wamid.reply".data) ("911".data) ("Yes".data) ("btn-1".data)) ∧
    ((WhatsappServiceMain.handleButtonResponseByMessageId
        (WhatsappServiceMain.handleButtonResponseByMessageId
          ⟨[⟨"m1".data, "a".data, "e1".data, "911".data,
              some ("booking_confirmation".data), false, 2⟩,
            ⟨"m2".data, "b".data, "e2".data, "911".data,
              some ("booking_confirmation".data), false, 1⟩],
            [⟨"a".data, "e1".data, "A".data, some ("911".data), none, none, 5⟩,
             ⟨"b".data, "e2".data, "B".data, some ("911".data), none, none, 6⟩]⟩
          ("wamid.reply".data) ("911".data) ("Yes".data) ("btn-1".data))
        ("wamid.reply".data) ("911".data) ("Yes".data) ("btn-1".data)).tokens.filter
          (fun t => t.isProcessed)).length = 2 := by
  refine ⟨by decide, by decide, by decide⟩

/-- C1 (amended): for a `ButtonReply` with buttonText "Yes" whose phone
resolves to an unprocessed token with usable participant and event ids,
processing it sets the attending value of every participant row scoped by
that (participantId, eventId) to "yes" and marks that token processed;
and — provided the resolved token is the only unprocessed token for that
phone and the phone-fallback lookup resolves to the token's participant or
to no participant — processing the identical event a second time marks no
further token processed and leaves the final state identical to the state
after the first processing. -/
theorem C1_amended (st : Domain.SysState) (messageId phoneNumber buttonId : Str)
    (tok : Domain.MessageToken)
    (hres : Domain.latestUnprocessedByPhone st.tokens (MioSync.cleanPhone phoneNumber) =
      some tok)
    (hpid : tok.participantId ≠ [])
    (heid : tok.eventId ≠ [])
    (huniq : ∀ t ∈ st.tokens, t.phoneNumber = MioSync.cleanPhone phoneNumber →
      t.isProcessed = false → t.messageId = tok.messageId)
    (hfb : WhatsappServiceMain.fallbackParticipantLookup st.participants
        (MioSync.cleanPhone phoneNumber) = none ∨
      ∃ p0, WhatsappServiceMain.fallbackParticipantLookup st.participants
          (MioSync.cleanPhone phoneNumber) = some p0 ∧
        p0.id = tok.participantId ∧ p0.eventId = tok.eventId) :
    (∀ q ∈ (WhatsappServiceMain.handleButtonResponseByMessageId st messageId phoneNumber
        ("Yes".data) buttonId).participants,
      q.id = tok.participantId → q.eventId = tok.eventId → q.attending = some ("yes".data)) ∧
    (∀ t ∈ (WhatsappServiceMain.handleButtonResponseByMessageId st messageId phoneNumber
        ("Yes".data) buttonId).tokens,
      t.messageId = tok.messageId → t.isProcessed = true) ∧
    WhatsappServiceMain.handleButtonResponseByMessageId
        (WhatsappServiceMain.handleButtonResponseByMessageId st messageId phoneNumber
          ("Yes".data) buttonId)
        messageId phoneNumber ("Yes".data) buttonId =
      WhatsappServiceMain.handleButtonResponseByMessageId st messageId phoneNumber
        ("Yes".data) buttonId := by
  have hst1 := WhatsappServiceMain.handle_token_branch st messageId phoneNumber buttonId tok
    hres hpid heid
  refine ⟨?_, ?_, ?_⟩
  · rw [hst1]
    exact Domain.updateParticipantAttending_sets st.participants tok.participantId
      tok.eventId ("yes".data)
  · rw [hst1]
    exact Domain.markProcessed_sets st.tokens tok.messageId
  · rw [hst1]
    exact WhatsappServiceMain.handle_replay st messageId phoneNumber buttonId tok
      hpid heid huniq hfb

/-- Witness for C1 (amended): a state with a single unprocessed token for
phone "911" and the matching participant; all hypotheses discharged by
evaluation, conclusion instantiated concretely. -/
theorem C1_amended_witness :
    WhatsappServiceMain.handleButtonResponseByMessageId
        (WhatsappServiceMain.handleButtonResponseByMessageId
          ⟨[⟨"m1".data, "a".data, "e1".data, "911".data,
              some ("booking_confirmation".data), false, 2⟩],
            [⟨"a".data, "e1".data, "A".data, some ("911".data), none, none, 5⟩]⟩
          ("wamid.reply".data) ("911".data) ("Yes".data) ("btn-1".data))
        ("wamid.reply".data) ("911".data) ("Yes".data) ("btn-1".data) =
      WhatsappServiceMain.handleButtonResponseByMessageId
        ⟨[⟨"m1".data, "a".data, "e1".data, "911".data,
            some ("booking_confirmation".data), false, 2⟩],
          [⟨"a".data, "e1".data, "A".data, some ("911".data), none, none, 5⟩]⟩
        ("wamid.reply".data) ("911".data) ("Yes".data) ("btn-1".data) :=
  (C1_amended
    ⟨[⟨"m1".data, "a".data, "e1".data, "911".data,
        some ("booking_confirmation".data), false, 2⟩],
      [⟨"a".data, "e1".data, "A".data, some ("911".data), none, none, 5⟩]⟩
    ("wamid.reply".data) ("911".data) ("btn-1".data)
    ⟨"m1".data, "a".data, "e1".data, "911".data,
      some ("booking_confirmation".data), false, 2⟩
    (by decide) (by decide) (by decide) (by decide)
    (Or.inr ⟨⟨"a".data, "e1".data, "A".data, some ("911".data), none, none, 5⟩,
      by decide, by decide, by decide⟩)).2.2

/-- C3: the claim that every MessageToken is created with processed = false is
right in intent but wrong on the revision under src/src/modules: that
revision's `storeMessageToken` binds the `"isProcessed"` column to `true`
(whatsapp.service.ts line 629), so the token stored for a fresh provider
message id is already processed; the fixed revision (part_009 line 964,
"Changed from true to false") stores it unprocessed, as the entity default
and the repository's own fix notes require. -/
theorem C3_processed_flag_divergence :
    ((WhatsappServiceMain.storeMessageToken [] ("wamid.ABC".data) ("p1".data) ("e1".data)
        ("+919123456789".data) (some ("guest_invite_id_request".data)) 7).map
      (fun t => t.isProcessed) = [true]) ∧
    ((WhatsappServiceFixed.storeMessageToken [] ("wamid.ABC".data) ("p1".data) ("e1".data)
        ("+919123456789".data) (some ("guest_invite_id_request".data)) 7).map
      (fun t => t.isProcessed) = [false]) := by
  exact ⟨rfl, rfl⟩

/-- C9: the Token Store contract.  Inserting a token whose message id already
exists is a no-op (the `ON CONFLICT ("messageId") DO NOTHING` insert neither
adds a second row nor overwrites the existing one), and after inserting two
unprocessed tokens for the same phone with creation times T1 < T2, the
latest-unprocessed-by-phone lookup returns the T2 row. -/
theorem C9_token_store_contract :
    (∀ (store : List Domain.MessageToken) (t : Domain.MessageToken),
        (∃ u ∈ store, u.messageId = t.messageId) → Domain.insertToken store t = store) ∧
    (∀ t1 t2 : Domain.MessageToken, t1.messageId ≠ t2.messageId →
        t2.phoneNumber = t1.phoneNumber → t1.isProcessed = false → t2.isProcessed = false →
        t1.createdAt < t2.createdAt →
        Domain.latestUnprocessedByPhone (Domain.insertToken (Domain.insertToken [] t1) t2)
          t1.phoneNumber = some t2) := by
  constructor
  · intro store t ⟨u, hu, hmid⟩
    unfold Domain.insertToken
    rw [if_pos]
    rw [List.any_eq_true]
    exact ⟨u, hu, beq_iff_eq.mpr hmid⟩
  · intro t1 t2 hmid hph h1p h2p hlt
    have hins1 : Domain.insertToken [] t1 = [t1] := by
      unfold Domain.insertToken
      rfl
    have hmid' : (t1.messageId == t2.messageId) = false := by
      rw [beq_eq_false_iff_ne]
      exact hmid
    have hins2 : Domain.insertToken [t1] t2 = [t1, t2] := by
      unfold Domain.insertToken
      rw [if_neg]
      · rfl
      · rw [List.any_eq_true]
        rintro ⟨u, hu, hbeq⟩
        rcases List.mem_singleton.mp hu with rfl
        rw [hmid'] at hbeq
        exact Bool.false_ne_true hbeq
    rw [hins1, hins2]
    unfold Domain.latestUnprocessedByPhone
    have hf1 : (t1.phoneNumber == t1.phoneNumber && !t1.isProcessed) = true := by
      rw [h1p]
      simp
    have hf2 : (t2.phoneNumber == t1.phoneNumber && !t2.isProcessed) = true := by
      rw [hph, h2p]
      simp
    have hfil : List.filter (fun t => t.phoneNumber == t1.phoneNumber && !t.isProcessed)
        [t1, t2] = [t1, t2] := by
      rw [List.filter_eq_self]
      intro a ha
      rcases List.mem_cons.mp ha with rfl | ha2
      · exact hf1
      · rcases List.mem_singleton.mp ha2 with rfl
        exact hf2
    rw [hfil]
    unfold Domain.selectLatest
    simp only [List.foldl_cons, List.foldl_nil, Domain.latestStep]
    rw [if_pos hlt]

/-- Witness for C9: both components applied at concrete tokens — a duplicate
insert of message id "m1" leaves the one-row store unchanged, and inserting
unprocessed rows at times 1 < 2 makes the lookup return the later row. -/
theorem C9_witness :
    Domain.insertToken
        [⟨"m1".data, "a".data, "e1".data, "911".data, none, false, 1⟩]
        ⟨"m1".data, "b".data, "e2".data, "922".data, none, true, 9⟩ =
      [⟨"m1".data, "a".data, "e1".data, "911".data, none, false, 1⟩] ∧
    Domain.latestUnprocessedByPhone
        (Domain.insertToken
          (Domain.insertToken [] ⟨"m1".data, "a".data, "e1".data, "911".data, none, false, 1⟩)
          ⟨"m2".data, "b".data, "e2".data, "911".data, none, false, 2⟩)
        ("911".data) =
      some ⟨"m2".data, "b".data, "e2".data, "911".data, none, false, 2⟩ :=
  ⟨C9_token_store_contract.1
      [⟨"m1".data, "a".data, "e1".data, "911".data, none, false, 1⟩]
      ⟨"m1".data, "b".data, "e2".data, "922".data, none, true, 9⟩
      ⟨⟨"m1".data, "a".data, "e1".data, "911".data, none, false, 1⟩,
        List.mem_singleton.mpr rfl, rfl⟩,
   C9_token_store_contract.2
      ⟨"m1".data, "a".data, "e1".data, "911".data, none, false, 1⟩
      ⟨"m2".data, "b".data, "e2".data, "911".data, none, false, 2⟩
      (by decide) rfl rfl rfl (by decide)⟩

/-- C10: in the new-format button-reply path (button text "Yes"/"No" with a
context message id), attendance is updated and the token deleted exactly when
the token resolved from the context id has template name
`booking_confirmation`; a context id resolving to a token with any other
template name (for example the provisional `status_update` or
`guest_invite_id_request` tokens) causes no attendance update and no token
deletion in this path. -/
theorem C10_booking_confirmation_gate (st : Domain.SysState) (ctx buttonText : Str)
    (td : Domain.MessageToken)
    (hfind : Domain.findTokenByMessageId st.tokens ctx = some td) :
    (td.templateName ≠ some ("booking_confirmation".data) →
      Controller.handleNewFormatButtonReply st buttonText (some ctx) = st) ∧
    (td.templateName = some ("booking_confirmation".data) → buttonText = "Yes".data →
      Controller.handleNewFormatButtonReply st buttonText (some ctx) =
        ⟨Domain.deleteMessageToken st.tokens ctx,
         Domain.updateParticipantAttending st.participants td.participantId td.eventId
           ("Yes".data)⟩) := by
  constructor
  · intro hneq
    unfold Controller.handleNewFormatButtonReply
    by_cases hb : (buttonText == "Yes".data || buttonText == "No".data) = true
    · rw [if_pos hb]
      dsimp only
      rw [hfind]
      have ht : (td.templateName == some ("booking_confirmation".data)) = false := by
        rw [beq_eq_false_iff_ne]
        exact hneq
      dsimp only
      dsimp only at ht
      rw [ht]
      rfl
    · rw [if_neg hb]
  · intro heq hyes
    subst hyes
    unfold Controller.handleNewFormatButtonReply
    rw [if_pos (by simp)]
    dsimp only
    rw [hfind]
    have ht : (td.templateName == some ("booking_confirmation".data)) = true :=
      beq_iff_eq.mpr heq
    dsimp only
    dsimp only at ht
    rw [ht]
    simp

/-- Witness for C10: a token with template `status_update` leaves the state
untouched, while a `booking_confirmation` token gets consumed and the
participant updated. -/
theorem C10_witness :
    Controller.handleNewFormatButtonReply
        ⟨[⟨"m1".data, "a".data, "e1".data, "911".data, some ("status_update".data), false, 1⟩],
          [⟨"a".data, "e1".data, "A".data, some ("911".data), none, none, 5⟩]⟩
        ("Yes".data) (some ("m1".data)) =
      ⟨[⟨"m1".data, "a".data, "e1".data, "911".data, some ("status_update".data), false, 1⟩],
        [⟨"a".data, "e1".data, "A".data, some ("911".data), none, none, 5⟩]⟩ ∧
    Controller.handleNewFormatButtonReply
        ⟨[⟨"m1".data, "a".data, "e1".data, "911".data,
            some ("booking_confirmation".data), false, 1⟩],
          [⟨"a".data, "e1".data, "A".data, some ("911".data), none, none, 5⟩]⟩
        ("Yes".data) (some ("m1".data)) =
      ⟨Domain.deleteMessageToken
          [⟨"m1".data, "a".data, "e1".data, "911".data,
              some ("booking_confirmation".data), false, 1⟩] ("m1".data),
        Domain.updateParticipantAttending
          [⟨"a".data, "e1".data, "A".data, some ("911".data), none, none, 5⟩]
          ("a".data) ("e1".data) ("Yes".data)⟩ :=
  ⟨(C10_booking_confirmation_gate
      ⟨[⟨"m1".data, "a".data, "e1".data, "911".data, some ("status_update".data), false, 1⟩],
        [⟨"a".data, "e1".data, "A".data, some ("911".data), none, none, 5⟩]⟩
      ("m1".data) ("Yes".data)
      ⟨"m1".data, "a".data, "e1".data, "911".data, some ("status_update".data), false, 1⟩
      (by decide)).1 (by decide),
   (C10_booking_confirmation_gate
      ⟨[⟨"m1".data, "a".data, "e1".data, "911".data,
          some ("booking_confirmation".data), false, 1⟩],
        [⟨"a".data, "e1".data, "A".data, some ("911".data), none, none, 5⟩]⟩
      ("m1".data) ("Yes".data)
      ⟨"m1".data, "a".data, "e1".data, "911".data,
        some ("booking_confirmation".data), false, 1⟩
      (by decide)).2 (by decide) rfl⟩

/-- C8: the claim that a delivery-status callback whose message id resolves to
an existing token "only logs" is false on the webhook controller: with no
message event in the batch, the present-token branch updates the participant's
attending column to "Not responded" (whatsapp.controller.ts lines 489-505),
so a participant record field is mutated. -/
theorem C8_counterexample :
    (Controller.handleStatusUpdate
        ⟨[⟨"m1".data, "a".data, "e1".data, "911".data,
            some ("your_event_schedule".data), true, 1⟩],
          [⟨"a".data, "e1".data, "A".data, some ("911".data), some ("yes".data), none, 5⟩]⟩
        ("m1".data) ("911".data) ("delivered".data) false 9).participants ≠
      [⟨"a".data, "e1".data, "A".data, some ("911".data), some ("yes".data), none, 5⟩] := by
  decide

/-- C8 (amended): when a delivery-status callback's message id resolves to an
existing token (and the batch carries no message events), processing the
status mutates no token but sets the resolved participant's attending value to
"Not responded"; the status value itself (including `failed`) is only logged
and triggers no retry — the outcome is identical for every status string; a
provisional token is created only in the absent-token case. -/
theorem C8_amended (st : Domain.SysState) (messageId recipientId status : Str) (now : Nat)
    (td : Domain.MessageToken)
    (hmid : messageId ≠ [])
    (hrid : recipientId ≠ [])
    (hfind : Domain.findTokenByMessageId st.tokens messageId = some td) :
    Controller.handleStatusUpdate st messageId recipientId status false now =
      ⟨st.tokens,
       Domain.updateParticipantAttending st.participants td.participantId td.eventId
         ("Not responded".data)⟩ ∧
    (∀ s1 s2 : Str,
      Controller.handleStatusUpdate st messageId recipientId s1 false now =
        Controller.handleStatusUpdate st messageId recipientId s2 false now) := by
  constructor
  · unfold Controller.handleStatusUpdate
    rw [if_neg (by exact Bool.false_ne_true)]
    have h1 : (messageId == ([] : Str)) = false := by
      rw [beq_eq_false_iff_ne]
      exact hmid
    have h2 : (recipientId == ([] : Str)) = false := by
      rw [beq_eq_false_iff_ne]
      exact hrid
    rw [h1, h2]
    simp only [Bool.or_self, Bool.false_eq_true, if_false]
    rw [hfind]
  · intro s1 s2
    rfl

/-- Witness for C8 (amended): concrete state with an existing token "m1";
delivered and failed statuses produce the same state, whose only change is
the participant's attending value. -/
theorem C8_amended_witness :
    Controller.handleStatusUpdate
        ⟨[⟨"m1".data, "a".data, "e1".data, "911".data,
            some ("your_event_schedule".data), true, 1⟩],
          [⟨"a".data, "e1".data, "A".data, some ("911".data), some ("yes".data), none, 5⟩]⟩
        ("m1".data) ("911".data) ("failed".data) false 9 =
      ⟨[⟨"m1".data, "a".data, "e1".data, "911".data,
          some ("your_event_schedule".data), true, 1⟩],
        Domain.updateParticipantAttending
          [⟨"a".data, "e1".data, "A".data, some ("911".data), some ("yes".data), none, 5⟩]
          ("a".data) ("e1".data) ("Not responded".data)⟩ :=
  (C8_amended
    ⟨[⟨"m1".data, "a".data, "e1".data, "911".data,
        some ("your_event_schedule".data), true, 1⟩],
      [⟨"a".data, "e1".data, "A".data, some ("911".data), some ("yes".data), none, 5⟩]⟩
    ("m1".data) ("911".data) ("failed".data) 9
    ⟨"m1".data, "a".data, "e1".data, "911".data, some ("your_event_schedule".data), true, 1⟩
    (by decide) (by decide) (by decide)).1

namespace Domain

open MioSync

theorem lookupParticipantByFormat_none_iff (ps : List Participant) (f : Str) :
    lookupParticipantByFormat ps f = none ↔ ∀ q ∈ ps, participantMatches f q = false := by
  unfold lookupParticipantByFormat
  rw [selectLatest_eq_none_iff, List.filter_eq_nil_iff]
  constructor
  · intro h q hq
    by_contra hb
    rw [Bool.not_eq_false] at hb
    exact h q hq hb
  · intro h q hq hb
    rw [h q hq] at hb
    exact Bool.false_ne_true hb

theorem lookupParticipantByFormat_some (ps : List Participant) (f : Str) {q : Participant}
    (h : lookupParticipantByFormat ps f = some q) :
    q ∈ ps ∧ participantMatches f q = true := by
  unfold lookupParticipantByFormat at h
  have hmemf := selectLatest_mem (fun q : Participant => q.createdAt) _ h
  exact ⟨(List.mem_filter.mp hmemf).1, (List.mem_filter.mp hmemf).2⟩

end Domain

namespace WhatsappServiceFixed

open MioSync Domain

theorem probeFormats_unique (ps : List Participant) (p : Participant) :
    ∀ fs : List Str,
      (∀ q ∈ ps, ∀ f ∈ fs, participantMatches f q = true → q = p) →
      (∃ f ∈ fs, participantMatches f p = true) →
      p ∈ ps →
      probeFormats ps fs = some p := by
  intro fs
  induction fs with
  | nil =>
    rintro - ⟨f, hf, -⟩ -
    exact absurd hf (List.not_mem_nil f)
  | cons f rest ih =>
    intro huniq hex hp
    unfold probeFormats
    cases hl : lookupParticipantByFormat ps f with
    | some q =>
      obtain ⟨hq, hm⟩ := lookupParticipantByFormat_some ps f hl
      rw [huniq q hq f (List.mem_cons_self f rest) hm]
    | none =>
      apply ih
      · intro q hq g hg hm
        exact huniq q hq g (List.mem_cons_of_mem f hg) hm
      · obtain ⟨g, hg, hm⟩ := hex
        rcases List.mem_cons.mp hg with rfl | hg2
        · exfalso
          have := (lookupParticipantByFormat_none_iff ps g).mp hl p hp
          rw [this] at hm
          exact Bool.false_ne_true hm
        · exact ⟨g, hg2, hm⟩
      · exact hp

end WhatsappServiceFixed

/-- C2: correlator phone fallback, proved against the repository's fixed
revision of the correlator (src/unnamed/part_009, lines 796-817), whose probe
list is exactly raw, '+'-prefixed, and default-country-code-('+91')-prefixed,
each matched exactly or after stripping spaces and hyphens, most-recently
created row first.  If no unprocessed token exists for the phone and exactly
one participant matches the phone across the three probe formats, the
fallback resolves that participant and their attendance is updated.  (The
older revision under src/src/modules probes only the first two formats; see
the result notes.) -/
theorem C2_fallback_three_formats (st : Domain.SysState)
    (messageId phoneNumber buttonTitle buttonId status : Str) (p : Domain.Participant)
    (hmsg : messageId ≠ [])
    (hph : phoneNumber ≠ [])
    (hbt : buttonTitle ≠ [])
    (hnp : MioSync.cleanPhone phoneNumber ≠ [])
    (hnotok : Domain.latestUnprocessedByPhone st.tokens (MioSync.cleanPhone phoneNumber) = none)
    (hp : p ∈ st.participants)
    (hmatch : ∃ f ∈ WhatsappServiceFixed.phoneFormats (MioSync.cleanPhone phoneNumber),
      Domain.participantMatches f p = true)
    (huniq : ∀ q ∈ st.participants,
      ∀ f ∈ WhatsappServiceFixed.phoneFormats (MioSync.cleanPhone phoneNumber),
        Domain.participantMatches f q = true → q = p)
    (hpid : p.id ≠ [])
    (heid : p.eventId ≠ [])
    (hstat : Domain.attendingStatusOf buttonTitle buttonId = some status) :
    WhatsappServiceFixed.fallbackParticipantLookup st.participants
        (MioSync.cleanPhone phoneNumber) = some p ∧
    WhatsappServiceFixed.handleButtonResponseByMessageId st messageId phoneNumber
        buttonTitle buttonId =
      ⟨st.tokens, Domain.updateParticipantAttending st.participants p.id p.eventId status⟩ := by
  have hfb : WhatsappServiceFixed.fallbackParticipantLookup st.participants
      (MioSync.cleanPhone phoneNumber) = some p := by
    unfold WhatsappServiceFixed.fallbackParticipantLookup
    exact WhatsappServiceFixed.probeFormats_unique st.participants p _ huniq hmatch hp
  refine ⟨hfb, ?_⟩
  have h1 : (messageId == ([] : Str)) = false := by
    rw [beq_eq_false_iff_ne]; exact hmsg
  have h2 : (phoneNumber == ([] : Str)) = false := by
    rw [beq_eq_false_iff_ne]; exact hph
  have h3 : (buttonTitle == ([] : Str)) = false := by
    rw [beq_eq_false_iff_ne]; exact hbt
  have h4 : (MioSync.cleanPhone phoneNumber == ([] : Str)) = false := by
    rw [beq_eq_false_iff_ne]; exact hnp
  have h5 : (p.id == ([] : Str)) = false := by
    rw [beq_eq_false_iff_ne]; exact hpid
  have h6 : (p.eventId == ([] : Str)) = false := by
    rw [beq_eq_false_iff_ne]; exact heid
  simp only [WhatsappServiceFixed.handleButtonResponseByMessageId, h1, h2, h3, h4,
    Bool.or_self, Bool.or_false, Bool.false_eq_true, if_false]
  rw [hnotok]
  dsimp only
  rw [hfb]
  dsimp only
  simp only [h5, h6, Bool.or_self, Bool.false_eq_true, if_false]
  rw [hstat]

/-- Witness for C2: a participant stored as "+91 91234-56789" (punctuation in
the database) matched via the third, '+91'-prefixed probe format for the
webhook phone "9123456789", with no token present; attendance is updated. -/
theorem C2_witness :
    WhatsappServiceFixed.handleButtonResponseByMessageId
        ⟨[],
          [⟨"a".data, "e1".data, "A".data, some ("+91 91234-56789".data), none, none, 5⟩]⟩
        ("wamid.reply".data) ("9123456789".data) ("Yes".data) ("btn-1".data) =
      ⟨[], Domain.updateParticipantAttending
          [⟨"a".data, "e1".data, "A".data, some ("+91 91234-56789".data), none, none, 5⟩]
          ("a".data) ("e1".data) ("yes".data)⟩ :=
  (C2_fallback_three_formats
    ⟨[], [⟨"a".data, "e1".data, "A".data, some ("+91 91234-56789".data), none, none, 5⟩]⟩
    ("wamid.reply".data) ("9123456789".data) ("Yes".data) ("btn-1".data) ("yes".data)
    ⟨"a".data, "e1".data, "A".data, some ("+91 91234-56789".data), none, none, 5⟩
    (by decide) (by decide) (by decide) (by decide) (by decide) (by decide)
    ⟨"+919123456789".data, by decide, by decide⟩
    (by decide) (by decide) (by decide) (by decide)).2

namespace Retry

open MioSync

/-- The error shape `retryWithBackoff` inspects
(event-participants.service.ts lines 200-227): the message string and, when
the error carries `ExternalServiceException` details, the provider error
code. -/
structure WAError where
  message : Str
  whatsappErrorCode : Option Str
deriving DecidableEq, Repr

/-- WhatsApp rate limit error codes 80007, 80008, 80009 (line 222). -/
def rateLimitCodes : List Str := ["80007".data, "80008".data, "80009".data]

/-- Permanent error codes never retried (lines 230-236). -/
def permanentErrorCodes : List Str :=
  ["190".data, "132001".data, "131008".data, "132000".data, "100".data]

/-- Lines 205-227: rate-limit detection from the lowercased message, OR'd
with the substring checks on the provider code when one is present. -/
def isRateLimitError (e : WAError) : Bool :=
  hasSubstr (lowerStr e.message) ("rate limit".data) ||
  hasSubstr (lowerStr e.message) ("too many requests".data) ||
  (match e.whatsappErrorCode with
   | some c => rateLimitCodes.any (fun code => hasSubstr c code)
   | none => false)

/-- Lines 229-244: an error is permanent when its provider code contains one
of the permanent codes; errors without a code are never permanent. -/
def isPermanentError (e : WAError) : Bool :=
  match e.whatsappErrorCode with
  | some c => permanentErrorCodes.any (fun code => hasSubstr c code)
  | none => false

/-- Outcome of the retry helper: the awaited value resolved, the error was
re-thrown, or the loop ran out without returning (maxRetries = 0, in which
case the TypeScript function returns undefined). -/
inductive RetryResult where
  | success
  | failure (e : WAError)
  | noReturn
deriving DecidableEq, Repr

/-- A run of `retryWithBackoff`: its outcome, the backoff delays awaited
between consecutive attempts, and the number of attempts made. -/
structure RetryTrace where
  result : RetryResult
  delays : List Nat
  attempts : Nat
deriving DecidableEq, Repr

/-- The attempt loop of `retryWithBackoff` (event-participants.service.ts
lines 192-267).  `fn k` is the outcome of the k-th attempt (none = success);
`fuel` counts the remaining iterations, maintained as
`attempt + fuel = maxRetries + 1`.  The loop: try; on error throw immediately
when permanent, throw when this was the last attempt, otherwise await a
backoff of `baseDelay * 2 ^ attempt`, times 5 when rate-limited, and retry. -/
def retryLoop (fn : Nat → Option WAError) (maxRetries baseDelay : Nat) :
    Nat → Nat → RetryTrace
  | _, 0 => ⟨.noReturn, [], 0⟩
  | attempt, fuel + 1 =>
      match fn attempt with
      | none => ⟨.success, [], 1⟩
      | some e =>
          if isPermanentError e then ⟨.failure e, [], 1⟩
          else if attempt == maxRetries then ⟨.failure e, [], 1⟩
          else
            let d := if isRateLimitError e then baseDelay * 2 ^ attempt * 5
                     else baseDelay * 2 ^ attempt
            let t := retryLoop fn maxRetries baseDelay (attempt + 1) fuel
            ⟨t.result, d :: t.delays, t.attempts + 1⟩

/-- `retryWithBackoff(fn, maxRetries = 3, baseDelay = 1000)`: run the loop
from attempt 1. -/
def retryWithBackoff (fn : Nat → Option WAError) (maxRetries baseDelay : Nat) : RetryTrace :=
  retryLoop fn maxRetries baseDelay 1 maxRetries

theorem retryLoop_rate_all (fn : Nat → Option WAError) (errs : Nat → WAError)
    (maxRetries baseDelay : Nat)
    (hfn : ∀ k, 1 ≤ k → k ≤ maxRetries → fn k = some (errs k))
    (hrl : ∀ k, 1 ≤ k → k ≤ maxRetries → isRateLimitError (errs k) = true)
    (hpm : ∀ k, 1 ≤ k → k ≤ maxRetries → isPermanentError (errs k) = false) :
    ∀ (fuel attempt : Nat), 1 ≤ attempt → attempt ≤ maxRetries →
      attempt + fuel = maxRetries + 1 →
      retryLoop fn maxRetries baseDelay attempt fuel =
        ⟨.failure (errs maxRetries),
         (List.range' attempt (fuel - 1)).map (fun k => baseDelay * 2 ^ k * 5),
         fuel⟩ := by
  intro fuel
  induction fuel with
  | zero =>
    intro attempt h1 h2 h3
    omega
  | succ f ih =>
    intro attempt h1 h2 h3
    simp only [retryLoop]
    rw [hfn attempt h1 h2]
    dsimp only
    rw [hpm attempt h1 h2]
    simp only [Bool.false_eq_true, if_false]
    by_cases hat : attempt = maxRetries
    · have hf0 : f = 0 := by omega
      subst hf0
      rw [if_pos (by rw [beq_iff_eq]; exact hat)]
      rw [hat]
      rfl
    · rw [if_neg (by rw [beq_iff_eq]; exact hat)]
      rw [hrl attempt h1 h2]
      simp only [if_true]
      rw [ih (attempt + 1) (by omega) (by omega) (by omega)]
      have hf1 : 1 ≤ f := by omega
      have hrange : List.range' attempt (f + 1 - 1) =
          attempt :: List.range' (attempt + 1) (f - 1) := by
        have : f + 1 - 1 = (f - 1) + 1 := by omega
        rw [this]
        exact List.range'_succ attempt (f - 1) 1
      rw [hrange]
      rfl

theorem chain_lt_delays (baseDelay : Nat) (hb : 1 ≤ baseDelay) :
    ∀ (n a : Nat),
      List.Chain' (· < ·) ((List.range' a n).map (fun k => baseDelay * 2 ^ k * 5)) := by
  intro n
  induction n with
  | zero => intro a; simp
  | succ m ih =>
    intro a
    rw [List.range'_succ a m 1]
    cases m with
    | zero => simp
    | succ m' =>
      rw [List.range'_succ (a + 1) m' 1]
      rw [List.map_cons, List.map_cons, List.chain'_cons]
      constructor
      · have h2 : (2:Nat) ^ a < 2 ^ (a + 1) := by
          apply Nat.pow_lt_pow_right
          · omega
          · omega
        have h3 : baseDelay * 2 ^ a < baseDelay * 2 ^ (a + 1) :=
          Nat.mul_lt_mul_of_le_of_lt (Nat.le_refl baseDelay) h2 (by omega)
        exact Nat.mul_lt_mul_of_lt_of_le h3 (Nat.le_refl 5) (by omega)
      · have := ih (a + 1)
        rw [List.range'_succ (a + 1) m' 1, List.map_cons] at this
        exact this

end Retry

/-- C4: dispatcher retry discipline (`retryWithBackoff`,
event-participants.service.ts lines 192-267).  A first attempt failing with a
permanent provider error code is propagated immediately: one attempt, zero
retries, zero delays.  When every attempt fails with a rate-limit-coded
error, exactly the configured maximum number of attempts is made, the awaited
backoff delays are strictly increasing, and the loop propagates the error of
the final attempt. -/
theorem C4_retry_discipline :
    (∀ (fn : Nat → Option Retry.WAError) (e : Retry.WAError) (maxRetries baseDelay : Nat),
        1 ≤ maxRetries → fn 1 = some e → Retry.isPermanentError e = true →
        Retry.retryWithBackoff fn maxRetries baseDelay = ⟨.failure e, [], 1⟩) ∧
    (∀ (fn : Nat → Option Retry.WAError) (errs : Nat → Retry.WAError)
        (maxRetries baseDelay : Nat),
        1 ≤ maxRetries → 1 ≤ baseDelay →
        (∀ k, 1 ≤ k → k ≤ maxRetries → fn k = some (errs k)) →
        (∀ k, 1 ≤ k → k ≤ maxRetries → Retry.isRateLimitError (errs k) = true) →
        (∀ k, 1 ≤ k → k ≤ maxRetries → Retry.isPermanentError (errs k) = false) →
        Retry.retryWithBackoff fn maxRetries baseDelay =
          ⟨.failure (errs maxRetries),
           (List.range' 1 (maxRetries - 1)).map (fun k => baseDelay * 2 ^ k * 5),
           maxRetries⟩ ∧
        List.Chain' (· < ·)
          ((List.range' 1 (maxRetries - 1)).map (fun k => baseDelay * 2 ^ k * 5))) := by
  constructor
  · intro fn e maxRetries baseDelay hm hfn hperm
    obtain ⟨m, rfl⟩ : ∃ m, maxRetries = m + 1 := ⟨maxRetries - 1, by omega⟩
    unfold Retry.retryWithBackoff
    simp only [Retry.retryLoop]
    rw [hfn]
    dsimp only
    rw [hperm]
    simp only [if_true]
  · intro fn errs maxRetries baseDelay hm hb hfn hrl hpm
    constructor
    · exact Retry.retryLoop_rate_all fn errs maxRetries baseDelay hfn hrl hpm
        maxRetries 1 (by omega) hm (by omega)
    · exact Retry.chain_lt_delays baseDelay hb (maxRetries - 1) 1

/-- Witness for C4: with maxRetries 3 and baseDelay 1000, a first attempt
failing with permanent code 190 (expired credential) yields one attempt and
no delays, while rate-limit code 80007 on every attempt yields three attempts
with delays 10000 and 20000 and the final error propagated. -/
theorem C4_witness :
    Retry.retryWithBackoff (fun _ => some ⟨"error".data, some ("190".data)⟩) 3 1000 =
      ⟨.failure ⟨"error".data, some ("190".data)⟩, [], 1⟩ ∧
    Retry.retryWithBackoff
        (fun _ => some ⟨"rate limited".data, some ("80007".data)⟩) 3 1000 =
      ⟨.failure ⟨"rate limited".data, some ("80007".data)⟩, [10000, 20000], 3⟩ :=
  ⟨(C4_retry_discipline.1 (fun _ => some ⟨"error".data, some ("190".data)⟩)
      ⟨"error".data, some ("190".data)⟩ 3 1000 (by omega) rfl (by decide)),
   by
    have h := (C4_retry_discipline.2
      (fun _ => some ⟨"rate limited".data, some ("80007".data)⟩)
      (fun _ => ⟨"rate limited".data, some ("80007".data)⟩) 3 1000
      (by omega) (by omega)
      (fun k _ _ => rfl)
      (fun k _ _ => by
        show Retry.isRateLimitError ⟨"rate limited".data, some ("80007".data)⟩ = true
        decide)
      (fun k _ _ => by
        show Retry.isPermanentError ⟨"rate limited".data, some ("80007".data)⟩ = false
        decide)).1
    rw [h]
    rfl⟩

namespace Scheduler

open MioSync Domain

/-- A row of the `events` table, restricted to the fields the reminder
scheduler reads (events-reminder.scheduler.ts lines 73-79). -/
structure Event where
  id : Str
  eventName : Str
  eventDateTime : Nat
  isActive : Bool
deriving DecidableEq, Repr

/-- The 12-hour window (`INTERVAL '12 hours'`), with time modelled in
seconds. -/
def twelveHours : Nat := 12 * 60 * 60

/-- The event query of one tick (events-reminder.scheduler.ts lines 73-79):
`"eventDateTime" > NOW() AND "eventDateTime" <= NOW() + INTERVAL '12 hours'
AND "isActive" = true`.  The `ORDER BY "eventDateTime" ASC` only fixes the
processing order and is not modelled. -/
def eventsNeedingReminders (events : List Event) (now : Nat) : List Event :=
  events.filter (fun e =>
    decide (now < e.eventDateTime) && decide (e.eventDateTime ≤ now + twelveHours) &&
      e.isActive)

/-- The per-row participant condition of the scheduler query
(events-reminder.scheduler.ts lines 114-123): same event, phone NOT NULL and
non-empty, `"reminderSentAt" IS NULL`. -/
def toRemind (eid : Str) (p : Participant) : Bool :=
  p.eventId == eid &&
  (match p.phoneNumber with
   | none => false
   | some s => !s.isEmpty) &&
  p.reminderSentAt == none

/-- The participant query of `sendRemindersForEvent`. -/
def participantsToRemind (ps : List Participant) (eid : Str) : List Participant :=
  ps.filter (toRemind eid)

/-- The scheduler's inline phone normalization (events-reminder.scheduler.ts
lines 173-186): keep digits and plus signs, drop one leading zero when not
'+'-prefixed, prepend "+91" when no '+' prefix remains. -/
def normalizeSchedulerPhone (raw : Str) : Str :=
  let p1 := cleanPhone raw
  let p2 := if p1.head? == some '0' && !(p1.head? == some '+') then p1.tail else p1
  if p2.head? == some '+' then p2 else "+91".data ++ p2

/-- The per-row effect of `UPDATE "event_participants" SET "reminderSentAt" =
NOW() WHERE "id" = $1` (events-reminder.scheduler.ts lines 248-253). -/
def sentUpd (pid : Str) (now : Nat) (q : Participant) : Participant :=
  if q.id == pid then { q with reminderSentAt := some now } else q

/-- The timestamp update itself. -/
def setReminderSentAt (table : List Participant) (pid : Str) (now : Nat) :
    List Participant :=
  table.map (sentUpd pid now)

/-- `sendReminderToParticipant` (events-reminder.scheduler.ts lines 159-272):
skip on missing/empty phone, on a normalized phone failing `^\+\d{10,15}$`,
or on missing participant/event names; otherwise send.  `oracle p.id` is the
provider message id the send returned — `none` covers both a thrown send
error and a 2xx response without `messages[0].id`, neither of which sets the
timestamp.  The log records each attempted send as (participant id, returned
message id). -/
def sendReminderToParticipant (oracle : Str → Option Str) (now : Nat) (e : Event)
    (p : Participant) (table : List Participant) (log : List (Str × Option Str)) :
    List Participant × List (Str × Option Str) :=
  match p.phoneNumber with
  | none => (table, log)
  | some raw =>
      if raw.isEmpty then (table, log)
      else
        let phone := normalizeSchedulerPhone raw
        if !(PhoneUtil.isE164Format phone) then (table, log)
        else if p.name.isEmpty || e.eventName.isEmpty then (table, log)
        else
          match oracle p.id with
          | some mid => (setReminderSentAt table p.id now, log ++ [(p.id, some mid)])
          | none => (table, log ++ [(p.id, none)])

/-- `sendRemindersForEvent` (events-reminder.scheduler.ts lines 106-157):
query the participants still to remind, then send to each in order,
threading the table state. -/
def sendRemindersForEvent (oracle : Str → Option Str) (now : Nat) (e : Event)
    (table : List Participant) (log : List (Str × Option Str)) :
    List Participant × List (Str × Option Str) :=
  (participantsToRemind table e.id).foldl
    (fun acc p => sendReminderToParticipant oracle now e p acc.1 acc.2) (table, log)

/-- One tick, `handleEventReminders` (events-reminder.scheduler.ts lines
64-104): process every event inside the window. -/
def handleEventReminders (oracle : Str → Option Str) (now : Nat) (events : List Event)
    (table : List Participant) : List Participant × List (Str × Option Str) :=
  (eventsNeedingReminders events now).foldl
    (fun acc e => sendRemindersForEvent oracle now e acc.1 acc.2) (table, [])

/-- Row-selection predicate by participant id. -/
def idEq (i : Str) : Participant → Bool := fun q => q.id == i

/-- Log-selection predicate by participant id. -/
def logIdEq (i : Str) : Str × Option Str → Bool := fun x => x.1 == i

end Scheduler

namespace Scheduler

open MioSync Domain

theorem sentUpd_id (pid : Str) (now : Nat) (q : Participant) :
    (sentUpd pid now q).id = q.id := by
  unfold sentUpd
  split <;> rfl

theorem setReminderSentAt_filter_ne (table : List Participant) (pid : Str) (now : Nat)
    (i : Str) (hne : pid ≠ i) :
    (setReminderSentAt table pid now).filter (idEq i) = table.filter (idEq i) := by
  unfold setReminderSentAt
  rw [List.filter_map]
  have hpred : table.filter (idEq i ∘ sentUpd pid now) = table.filter (idEq i) := by
    apply List.filter_congr
    intro q _
    show idEq i (sentUpd pid now q) = idEq i q
    unfold idEq
    rw [sentUpd_id]
  rw [hpred]
  have hid : List.map (sentUpd pid now) (List.filter (idEq i) table) =
      List.map id (List.filter (idEq i) table) := by
    apply List.map_congr_left
    intro q hq
    have hqi : q.id = i := by
      have h2 := (List.mem_filter.mp hq).2
      unfold idEq at h2
      exact beq_iff_eq.mp h2
    show sentUpd pid now q = q
    unfold sentUpd
    rw [if_neg]
    rw [beq_iff_eq, hqi]
    intro h
    exact hne h.symm
  rw [hid, List.map_id]

theorem setReminderSentAt_filter_self (table : List Participant) (pid : Str) (now : Nat) :
    (setReminderSentAt table pid now).filter (idEq pid) =
      (table.filter (idEq pid)).map (fun q => { q with reminderSentAt := some now }) := by
  unfold setReminderSentAt
  rw [List.filter_map]
  have hpred : table.filter (idEq pid ∘ sentUpd pid now) = table.filter (idEq pid) := by
    apply List.filter_congr
    intro q _
    show idEq pid (sentUpd pid now q) = idEq pid q
    unfold idEq
    rw [sentUpd_id]
  rw [hpred]
  apply List.map_congr_left
  intro q hq
  have hqi : (q.id == pid) = true := by
    have := (List.mem_filter.mp hq).2
    unfold idEq at this
    exact this
  unfold sentUpd
  rw [if_pos hqi]

theorem step_frame (oracle : Str → Option Str) (now : Nat) (e : Event) (p : Participant)
    (table : List Participant) (log : List (Str × Option Str)) (i : Str)
    (hne : p.id ≠ i) :
    ((sendReminderToParticipant oracle now e p table log).1.filter (idEq i) =
      table.filter (idEq i)) ∧
    ((sendReminderToParticipant oracle now e p table log).2.filter (logIdEq i) =
      log.filter (logIdEq i)) := by
  have hbeq : (p.id == i) = false := by
    rw [beq_eq_false_iff_ne]
    exact hne
  unfold sendReminderToParticipant
  cases p.phoneNumber with
  | none => exact ⟨rfl, rfl⟩
  | some raw =>
    dsimp only
    by_cases hr : raw.isEmpty = true
    · rw [if_pos hr]
      exact ⟨rfl, rfl⟩
    · rw [if_neg hr]
      by_cases hp : (!(PhoneUtil.isE164Format (normalizeSchedulerPhone raw))) = true
      · rw [if_pos hp]
        exact ⟨rfl, rfl⟩
      · rw [if_neg hp]
        by_cases hn : (p.name.isEmpty || e.eventName.isEmpty) = true
        · rw [if_pos hn]
          exact ⟨rfl, rfl⟩
        · rw [if_neg hn]
          cases oracle p.id with
          | some mid =>
            constructor
            · exact setReminderSentAt_filter_ne table p.id now i hne
            · rw [List.filter_append]
              have : List.filter (logIdEq i) [(p.id, some mid)] = [] := by
                simp [logIdEq, List.filter, hbeq]
              rw [this, List.append_nil]
          | none =>
            constructor
            · rfl
            · rw [List.filter_append]
              have : List.filter (logIdEq i) [(p.id, (none : Option Str))] = [] := by
                simp [logIdEq, List.filter, hbeq]
              rw [this, List.append_nil]

theorem fold_frame (oracle : Str → Option Str) (now : Nat) (e : Event) (i : Str) :
    ∀ (ps : List Participant) (table : List Participant) (log : List (Str × Option Str)),
      (∀ p ∈ ps, p.id ≠ i) →
      ((ps.foldl (fun acc p => sendReminderToParticipant oracle now e p acc.1 acc.2)
          (table, log)).1.filter (idEq i) = table.filter (idEq i)) ∧
      ((ps.foldl (fun acc p => sendReminderToParticipant oracle now e p acc.1 acc.2)
          (table, log)).2.filter (logIdEq i) = log.filter (logIdEq i)) := by
  intro ps
  induction ps with
  | nil =>
    intro table log _
    exact ⟨rfl, rfl⟩
  | cons q t ih =>
    intro table log hall
    simp only [List.foldl_cons]
    obtain ⟨h1, h2⟩ := step_frame oracle now e q table log i
      (hall q (List.mem_cons_self q t))
    obtain ⟨h3, h4⟩ := ih (sendReminderToParticipant oracle now e q table log).1
      (sendReminderToParticipant oracle now e q table log).2
      (fun p hp => hall p (List.mem_cons_of_mem q hp))
    constructor
    · rw [h3, h1]
    · rw [h4, h2]

end Scheduler

namespace Scheduler

open MioSync Domain

theorem step_self (oracle : Str → Option Str) (now : Nat) (e : Event) (p : Participant)
    (table : List Participant) (log : List (Str × Option Str)) (raw mid : Str)
    (hphone : p.phoneNumber = some raw)
    (hraw : raw ≠ [])
    (hval : PhoneUtil.isE164Format (normalizeSchedulerPhone raw) = true)
    (hname : p.name ≠ [])
    (hev : e.eventName ≠ [])
    (hsend : oracle p.id = some mid) :
    sendReminderToParticipant oracle now e p table log =
      (setReminderSentAt table p.id now, log ++ [(p.id, some mid)]) := by
  unfold sendReminderToParticipant
  rw [hphone]
  dsimp only
  rw [if_neg (by rw [List.isEmpty_iff]; exact hraw)]
  rw [if_neg (by rw [hval]; exact Bool.not_eq_true false ▸ (by simp))]
  rw [if_neg (by
    rw [Bool.or_eq_true]
    rintro (h1 | h2)
    · exact hname (List.isEmpty_iff.mp h1)
    · exact hev (List.isEmpty_iff.mp h2))]
  rw [hsend]

theorem fold_process (oracle : Str → Option Str) (now : Nat) (e : Event)
    (P : Participant) (raw mid : Str)
    (hphone : P.phoneNumber = some raw)
    (hraw : raw ≠ [])
    (hval : PhoneUtil.isE164Format (normalizeSchedulerPhone raw) = true)
    (hname : P.name ≠ [])
    (hev : e.eventName ≠ [])
    (hsend : oracle P.id = some mid) :
    ∀ (ps : List Participant) (table : List Participant) (log : List (Str × Option Str)),
      ps.filter (idEq P.id) = [P] →
      ((ps.foldl (fun acc p => sendReminderToParticipant oracle now e p acc.1 acc.2)
          (table, log)).1.filter (idEq P.id) =
        (table.filter (idEq P.id)).map (fun q => { q with reminderSentAt := some now })) ∧
      ((ps.foldl (fun acc p => sendReminderToParticipant oracle now e p acc.1 acc.2)
          (table, log)).2.filter (logIdEq P.id) =
        log.filter (logIdEq P.id) ++ [(P.id, some mid)]) := by
  intro ps
  induction ps with
  | nil =>
    intro table log hfil
    exact absurd hfil (by simp)
  | cons q t ih =>
    intro table log hfil
    simp only [List.foldl_cons]
    by_cases hq : idEq P.id q = true
    · rw [List.filter_cons_of_pos hq] at hfil
      have hqP : q = P := by injection hfil
      have htail : t.filter (idEq P.id) = [] := by
        have := hfil
        injection this
      subst hqP
      rw [step_self oracle now e q table log raw mid hphone hraw hval hname hev hsend]
      have hnone : ∀ p ∈ t, p.id ≠ q.id := by
        intro p hp hcon
        have : p ∈ t.filter (idEq q.id) := by
          rw [List.mem_filter]
          exact ⟨hp, by unfold idEq; rw [beq_iff_eq]; exact hcon⟩
        rw [htail] at this
        exact absurd this (List.not_mem_nil p)
      obtain ⟨h1, h2⟩ := fold_frame oracle now e q.id t
        (setReminderSentAt table q.id now) (log ++ [(q.id, some mid)]) hnone
      constructor
      · rw [h1, setReminderSentAt_filter_self]
      · rw [h2, List.filter_append]
        have : List.filter (logIdEq q.id) [(q.id, some mid)] = [(q.id, some mid)] := by
          simp [logIdEq, List.filter]
        rw [this]
    · rw [List.filter_cons_of_neg hq] at hfil
      have hne : q.id ≠ P.id := by
        intro hcon
        apply hq
        unfold idEq
        rw [beq_iff_eq]
        exact hcon
      obtain ⟨h1, h2⟩ := step_frame oracle now e q table log P.id hne
      obtain ⟨h3, h4⟩ := ih (sendReminderToParticipant oracle now e q table log).1
        (sendReminderToParticipant oracle now e q table log).2 hfil
      constructor
      · rw [h3, h1]
      · rw [h4, h2]

end Scheduler

namespace Scheduler

open MioSync Domain

theorem toRemind_false_of_sent (eid : Str) (p : Participant) (n : Nat)
    (h : p.reminderSentAt = some n) : toRemind eid p = false := by
  unfold toRemind
  rw [h]
  simp

theorem toRemind_false_of_event (eid : Str) (p : Participant)
    (h : p.eventId ≠ eid) : toRemind eid p = false := by
  unfold toRemind
  have : (p.eventId == eid) = false := by
    rw [beq_eq_false_iff_ne]
    exact h
  rw [this]
  simp

theorem toRemind_true (eid : Str) (p : Participant) (raw : Str)
    (hev : p.eventId = eid) (hph : p.phoneNumber = some raw) (hraw : raw ≠ [])
    (hts : p.reminderSentAt = none) : toRemind eid p = true := by
  unfold toRemind
  rw [hev, hph, hts]
  simp [List.isEmpty_iff]
  exact hraw

theorem runEvent_frame (oracle : Str → Option Str) (now : Nat) (e : Event) (i : Str)
    (table : List Participant) (log : List (Str × Option Str))
    (hno : ∀ q ∈ table, q.id = i → toRemind e.id q = false) :
    ((sendRemindersForEvent oracle now e table log).1.filter (idEq i) =
      table.filter (idEq i)) ∧
    ((sendRemindersForEvent oracle now e table log).2.filter (logIdEq i) =
      log.filter (logIdEq i)) := by
  unfold sendRemindersForEvent
  apply fold_frame
  intro p hp hcon
  have hmem := List.mem_filter.mp hp
  have := hno p hmem.1 hcon
  rw [this] at hmem
  exact Bool.false_ne_true hmem.2

theorem events_fold_frame (oracle : Str → Option Str) (now : Nat) (i : Str) :
    ∀ (evs : List Event) (table : List Participant) (log : List (Str × Option Str)),
      (∀ q ∈ table, q.id = i → ∀ e ∈ evs, toRemind e.id q = false) →
      ((evs.foldl (fun acc e => sendRemindersForEvent oracle now e acc.1 acc.2)
          (table, log)).1.filter (idEq i) = table.filter (idEq i)) ∧
      ((evs.foldl (fun acc e => sendRemindersForEvent oracle now e acc.1 acc.2)
          (table, log)).2.filter (logIdEq i) = log.filter (logIdEq i)) := by
  intro evs
  induction evs with
  | nil =>
    intro table log _
    exact ⟨rfl, rfl⟩
  | cons e0 rest ih =>
    intro table log hno
    simp only [List.foldl_cons]
    obtain ⟨h1, h2⟩ := runEvent_frame oracle now e0 i table log
      (fun q hq hqi => hno q hq hqi e0 (List.mem_cons_self e0 rest))
    have hno' : ∀ q ∈ (sendRemindersForEvent oracle now e0 table log).1, q.id = i →
        ∀ e ∈ rest, toRemind e.id q = false := by
      intro q hq hqi e he
      have hmem : q ∈ (sendRemindersForEvent oracle now e0 table log).1.filter (idEq i) := by
        rw [List.mem_filter]
        exact ⟨hq, by unfold idEq; rw [beq_iff_eq]; exact hqi⟩
      rw [h1, List.mem_filter] at hmem
      exact hno q hmem.1 hqi e (List.mem_cons_of_mem e0 he)
    obtain ⟨h3, h4⟩ := ih (sendRemindersForEvent oracle now e0 table log).1
      (sendRemindersForEvent oracle now e0 table log).2 hno'
    constructor
    · rw [h3, h1]
    · rw [h4, h2]

theorem filter_idEq_of_nodup (P : Participant) :
    ∀ (table : List Participant), (table.map (fun q => q.id)).Nodup → P ∈ table →
      table.filter (idEq P.id) = [P] := by
  intro table
  induction table with
  | nil =>
    intro _ hP
    exact absurd hP (List.not_mem_nil P)
  | cons q t ih =>
    intro hnd hP
    rw [List.map_cons, List.nodup_cons] at hnd
    by_cases hq : idEq P.id q = true
    · have hqid : q.id = P.id := by
        unfold idEq at hq
        exact beq_iff_eq.mp hq
      have hqP : q = P := by
        rcases List.mem_cons.mp hP with h | h
        · exact h.symm
        · exfalso
          apply hnd.1
          rw [hqid]
          exact List.mem_map.mpr ⟨P, h, rfl⟩
      subst hqP
      rw [List.filter_cons_of_pos hq]
      have htail : t.filter (idEq q.id) = [] := by
        rw [List.filter_eq_nil_iff]
        intro r hr hcon
        apply hnd.1
        have : r.id = q.id := by
          unfold idEq at hcon
          exact beq_iff_eq.mp hcon
        rw [← this]
        exact List.mem_map.mpr ⟨r, hr, rfl⟩
      rw [htail]
    · rw [List.filter_cons_of_neg hq]
      have hP' : P ∈ t := by
        rcases List.mem_cons.mp hP with h | h
        · exfalso
          apply hq
          unfold idEq
          rw [h, beq_iff_eq]
        · exact h
      exact ih hnd.2 hP'

theorem runEvent_process (oracle : Str → Option Str) (now : Nat) (E : Event)
    (P : Participant) (raw mid : Str) (table : List Participant)
    (log : List (Str × Option Str))
    (hphone : P.phoneNumber = some raw)
    (hraw : raw ≠ [])
    (hval : PhoneUtil.isE164Format (normalizeSchedulerPhone raw) = true)
    (hname : P.name ≠ [])
    (hev : E.eventName ≠ [])
    (hsend : oracle P.id = some mid)
    (hPev : P.eventId = E.id)
    (hts : P.reminderSentAt = none)
    (hPfil : table.filter (idEq P.id) = [P]) :
    ((sendRemindersForEvent oracle now E table log).1.filter (idEq P.id) =
      [{ P with reminderSentAt := some now }]) ∧
    ((sendRemindersForEvent oracle now E table log).2.filter (logIdEq P.id) =
      log.filter (logIdEq P.id) ++ [(P.id, some mid)]) := by
  have hpsfil : (participantsToRemind table E.id).filter (idEq P.id) = [P] := by
    unfold participantsToRemind
    rw [List.filter_filter]
    have hcomm : table.filter (fun a => idEq P.id a && toRemind E.id a) =
        (table.filter (idEq P.id)).filter (toRemind E.id) := by
      rw [List.filter_filter]
      apply List.filter_congr
      intro q _
      rw [Bool.and_comm]
    rw [hcomm, hPfil]
    have : toRemind E.id P = true := toRemind_true E.id P raw hPev hphone hraw hts
    simp [List.filter, this]
  obtain ⟨h1, h2⟩ := fold_process oracle now E P raw mid hphone hraw hval hname hev hsend
    (participantsToRemind table E.id) table log hpsfil
  constructor
  · unfold sendRemindersForEvent
    rw [h1, hPfil]
    rfl
  · unfold sendRemindersForEvent
    rw [h2]

end Scheduler

/-- C5: scheduler idempotency invariant for the 12-hour reminder tier.  For
an event inside the window and a participant with a NULL `reminderSentAt`,
valid phone and names, whose send returns a provider message id: one tick
performs exactly one send for that participant and sets every row with their
id to the tick's timestamp; any later tick before the event performs zero
further sends for them.  In addition: the participant table is only ever
mutated by a send step whose send returned a message id (the timestamp write
is the sole effect and the sole idempotency guard), and a participant with a
non-NULL tier timestamp is never selected by the tier's query. -/
theorem C5_scheduler_idempotency
    (events : List Scheduler.Event) (table : List Domain.Participant)
    (oracle oracle2 : Str → Option Str) (now now2 : Nat)
    (E : Scheduler.Event) (P : Domain.Participant) (raw mid : Str)
    (hEv : E ∈ events)
    (hEvNodup : (events.map (fun e => e.id)).Nodup)
    (hTabNodup : (table.map (fun q => q.id)).Nodup)
    (hP : P ∈ table)
    (hPev : P.eventId = E.id)
    (hActive : E.isActive = true)
    (hWin1 : now < E.eventDateTime)
    (hWin2 : E.eventDateTime ≤ now + Scheduler.twelveHours)
    (hphone : P.phoneNumber = some raw)
    (hraw : raw ≠ [])
    (hval : PhoneUtil.isE164Format (Scheduler.normalizeSchedulerPhone raw) = true)
    (hname : P.name ≠ [])
    (hev : E.eventName ≠ [])
    (hts : P.reminderSentAt = none)
    (hsend : oracle P.id = some mid)
    (hnow2 : now2 < E.eventDateTime) :
    ((Scheduler.handleEventReminders oracle now events table).2.filter
        (Scheduler.logIdEq P.id) = [(P.id, some mid)]) ∧
    (∀ q ∈ (Scheduler.handleEventReminders oracle now events table).1,
      q.id = P.id → q.reminderSentAt = some now) ∧
    ((Scheduler.handleEventReminders oracle2 now2 events
        (Scheduler.handleEventReminders oracle now events table).1).2.filter
        (Scheduler.logIdEq P.id) = []) ∧
    (∀ (tbl : List Domain.Participant) (lg : List (Str × Option Str))
        (q : Domain.Participant) (e' : Scheduler.Event),
      (Scheduler.sendReminderToParticipant oracle now e' q tbl lg).1 ≠ tbl →
        ∃ m, oracle q.id = some m) ∧
    (∀ (e' : Scheduler.Event) (q : Domain.Participant) (n : Nat),
      q.reminderSentAt = some n → Scheduler.toRemind e'.id q = false) := by
  have hPfil : table.filter (Scheduler.idEq P.id) = [P] :=
    Scheduler.filter_idEq_of_nodup P table hTabNodup hP
  have hEevs : E ∈ Scheduler.eventsNeedingReminders events now := by
    unfold Scheduler.eventsNeedingReminders
    rw [List.mem_filter]
    refine ⟨hEv, ?_⟩
    simp [hWin1, hWin2, hActive]
  have hEvsNodup : ((Scheduler.eventsNeedingReminders events now).map
      (fun e => e.id)).Nodup := by
    apply List.Nodup.sublist _ hEvNodup
    apply List.Sublist.map
    exact List.filter_sublist events
  obtain ⟨l1, l2, hsplit⟩ := List.append_of_mem hEevs
  rw [hsplit, List.map_append, List.map_cons] at hEvsNodup
  rw [List.nodup_append] at hEvsNodup
  obtain ⟨hnd1, hnd2, hdisj⟩ := hEvsNodup
  rw [List.nodup_cons] at hnd2
  have hl1 : ∀ e ∈ l1, e.id ≠ E.id := by
    intro e he hcon
    apply hdisj (List.mem_map.mpr ⟨e, he, rfl⟩)
    rw [hcon]
    exact List.mem_cons_self _ _
  have hl2 : ∀ e ∈ l2, e.id ≠ E.id := by
    intro e he hcon
    apply hnd2.1
    rw [← hcon]
    exact List.mem_map.mpr ⟨e, he, rfl⟩
  set f := fun (acc : List Domain.Participant × List (Str × Option Str))
    (e : Scheduler.Event) => Scheduler.sendRemindersForEvent oracle now e acc.1 acc.2
    with hf
  set s1 := l1.foldl f (table, []) with hs1
  set s2 := f s1 E with hs2
  set s3 := l2.foldl f s2 with hs3
  have hr : Scheduler.handleEventReminders oracle now events table = s3 := by
    unfold Scheduler.handleEventReminders
    rw [hsplit, List.foldl_append, List.foldl_cons]
  obtain ⟨hs1a, hs1b⟩ := Scheduler.events_fold_frame oracle now P.id l1 table []
    (by
      intro q hq hqi e he
      have hmem : q ∈ table.filter (Scheduler.idEq P.id) := by
        rw [List.mem_filter]
        exact ⟨hq, by unfold Scheduler.idEq; rw [beq_iff_eq]; exact hqi⟩
      rw [hPfil, List.mem_singleton] at hmem
      subst hmem
      apply Scheduler.toRemind_false_of_event
      rw [hPev]
      exact fun hcon => hl1 e he hcon.symm)
  rw [hPfil] at hs1a
  obtain ⟨hs2a, hs2b⟩ := Scheduler.runEvent_process oracle now E P raw mid s1.1 s1.2
    hphone hraw hval hname hev hsend hPev hts hs1a
  rw [hs1b] at hs2b
  simp only [List.filter_nil, List.nil_append] at hs2b
  obtain ⟨hs3a, hs3b⟩ := Scheduler.events_fold_frame oracle now P.id l2 s2.1 s2.2
    (by
      intro q hq hqi e he
      have hmem : q ∈ s2.1.filter (Scheduler.idEq P.id) := by
        rw [List.mem_filter]
        exact ⟨hq, by unfold Scheduler.idEq; rw [beq_iff_eq]; exact hqi⟩
      rw [hs2a, List.mem_singleton] at hmem
      subst hmem
      exact Scheduler.toRemind_false_of_sent e.id _ now rfl)
  rw [hs2a] at hs3a
  rw [hs2b] at hs3b
  refine ⟨?_, ?_, ?_, ?_, ?_⟩
  · rw [hr]
    exact hs3b
  · intro q hq hqi
    rw [hr] at hq
    have hmem : q ∈ s3.1.filter (Scheduler.idEq P.id) := by
      rw [List.mem_filter]
      exact ⟨hq, by unfold Scheduler.idEq; rw [beq_iff_eq]; exact hqi⟩
    rw [hs3a, List.mem_singleton] at hmem
    subst hmem
    rfl
  · rw [hr]
    unfold Scheduler.handleEventReminders
    have hframe := Scheduler.events_fold_frame oracle2 now2 P.id
      (Scheduler.eventsNeedingReminders events now2) s3.1 []
      (by
        intro q hq hqi e _
        have hmem : q ∈ s3.1.filter (Scheduler.idEq P.id) := by
          rw [List.mem_filter]
          exact ⟨hq, by unfold Scheduler.idEq; rw [beq_iff_eq]; exact hqi⟩
        rw [hs3a, List.mem_singleton] at hmem
        subst hmem
        exact Scheduler.toRemind_false_of_sent e.id _ now rfl)
    exact hframe.2
  · intro tbl lg q e' hne
    unfold Scheduler.sendReminderToParticipant at hne
    cases hph : q.phoneNumber with
    | none =>
      rw [hph] at hne
      exact absurd rfl hne
    | some raw' =>
      rw [hph] at hne
      dsimp only at hne
      by_cases h1 : raw'.isEmpty = true
      · rw [if_pos h1] at hne
        exact absurd rfl hne
      · rw [if_neg h1] at hne
        by_cases h2 :
            (!(PhoneUtil.isE164Format (Scheduler.normalizeSchedulerPhone raw'))) = true
        · rw [if_pos h2] at hne
          exact absurd rfl hne
        · rw [if_neg h2] at hne
          by_cases h3 : (q.name.isEmpty || e'.eventName.isEmpty) = true
          · rw [if_pos h3] at hne
            exact absurd rfl hne
          · rw [if_neg h3] at hne
            cases ho : oracle q.id with
            | some m => exact ⟨m, rfl⟩
            | none =>
              rw [ho] at hne
              exact absurd rfl hne
  · intro e' q n h
    exact Scheduler.toRemind_false_of_sent e'.id q n h

/-- Witness for C5: event "Annual Gala" 10000 seconds away (inside the
12-hour window), participant "a" with phone "9123456789" and no prior send;
the first tick logs exactly one successful send and a second tick before the
event logs none for that participant. -/
theorem C5_witness :
    ((Scheduler.handleEventReminders (fun _ => some ("wamid.ABC".data)) 90000
        [⟨"e1".data, "Annual Gala".data, 100000, true⟩]
        [⟨"a".data, "e1".data, "A".data, some ("9123456789".data), none, none, 5⟩]).2.filter
      (Scheduler.logIdEq ("a".data)) = [(("a".data : Str), some ("wamid.ABC".data))]) ∧
    ((Scheduler.handleEventReminders (fun _ => some ("wamid.XYZ".data)) 95000
        [⟨"e1".data, "Annual Gala".data, 100000, true⟩]
        (Scheduler.handleEventReminders (fun _ => some ("wamid.ABC".data)) 90000
          [⟨"e1".data, "Annual Gala".data, 100000, true⟩]
          [⟨"a".data, "e1".data, "A".data, some ("9123456789".data), none, none,
            5⟩]).1).2.filter
      (Scheduler.logIdEq ("a".data)) = []) := by
  have h := C5_scheduler_idempotency
    [⟨"e1".data, "Annual Gala".data, 100000, true⟩]
    [⟨"a".data, "e1".data, "A".data, some ("9123456789".data), none, none, 5⟩]
    (fun _ => some ("wamid.ABC".data)) (fun _ => some ("wamid.XYZ".data)) 90000 95000
    ⟨"e1".data, "Annual Gala".data, 100000, true⟩
    ⟨"a".data, "e1".data, "A".data, some ("9123456789".data), none, none, 5⟩
    ("9123456789".data) ("wamid.ABC".data)
    (by decide) (by decide) (by decide) (by decide) (by decide) (by decide)
    (by decide) (by decide) (by decide) (by decide) (by decide) (by decide)
    (by decide) (by decide) rfl (by decide)
  exact ⟨h.1, h.2.2.1⟩
